import Mathlib

/-!
Verification development for the Instagram-to-event import pipeline of the
popmap backend.  The definitions below are a shallow embedding of the Python
sources under `backend/apps/instagram/`:

* `extraction/event_extractor.py` — `ExtractedEvent`, `EventExtractor._parse_response`,
  `_parse_date`, `_parse_time`, and the response handling inside `extract`;
* `services/scraper.py` — `ScraperInstagramService.fetch_user_posts_by_hashtag`;
* `services/import_service.py` — `ImportResult`, `InstagramImportService.import_posts`
  and `_create_draft_event`;
* `models.py` — `InstagramPostLog` with its `(business, instagram_post_id)`
  unique-togther constraint;
* `views.py` — `InstagramImportView.post`.

External effects are made explicit: the HTTP upstream response, the LLM response
text, database state, and injected per-post failures are parameters, and Python
exceptions are modelled with `Except`.  Machine floats of the source are
modelled as rationals.
-/

instance {ε α : Type} [DecidableEq ε] [DecidableEq α] : DecidableEq (Except ε α) := fun a b =>
  match a, b with
  | .ok x, .ok y => if h : x = y then .isTrue (by rw [h]) else .isFalse (by simp [h])
  | .error x, .error y => if h : x = y then .isTrue (by rw [h]) else .isFalse (by simp [h])
  | .ok _, .error _ => .isFalse (by simp)
  | .error _, .ok _ => .isFalse (by simp)

namespace Popmap

/-! ### Dates and times

Models `datetime.date` and `datetime.time` values as they are used by the
pipeline.  A combined datetime is represented as seconds relative to the civil
epoch 1970-01-01 (timezone handling of `timezone.make_aware` is not modelled:
all datetimes of one run live in the single tenant-processing timezone). -/

structure PyDate where
  year : Int
  month : Nat
  day : Nat
  deriving DecidableEq, Repr

structure PyTime where
  hour : Nat
  minute : Nat
  second : Nat
  microsecond : Nat
  deriving DecidableEq, Repr

/-- Days since 1970-01-01 of a civil date (standard days-from-civil algorithm).
Only used on dates with `1 ≤ year`, where `Int` truncated division agrees with
floor division. -/
def daysFromCivil (y : Int) (m d : Nat) : Int :=
  let y' : Int := if m ≤ 2 then y - 1 else y
  let era : Int := (if 0 ≤ y' then y' else y' - 399) / 400
  let yoe : Int := y' - era * 400
  let mp : Int := ((m : Int) + 9) % 12
  let doy : Int := (153 * mp + 2) / 5 + (d : Int) - 1
  let doe : Int := yoe * 365 + yoe / 4 - yoe / 100 + doy
  era * 146097 + doe - 719468

/-- Models `datetime.combine(date, time)` (made aware in the tenant's zone),
as seconds since the epoch; the model's datetime resolution is one second, so
a time's microseconds do not enter the combined value (no claim observes
sub-second differences). -/
def pyCombineSeconds (d : PyDate) (t : PyTime) : Int :=
  daysFromCivil d.year d.month d.day * 86400 + (t.hour : Int) * 3600 + (t.minute : Int) * 60 +
    (t.second : Int)

def isLeapYear (y : Int) : Bool :=
  y % 4 = 0 && (y % 100 ≠ 0 || y % 400 = 0)

def daysInMonth (y : Int) (m : Nat) : Nat :=
  match m with
  | 1 => 31
  | 2 => if isLeapYear y then 29 else 28
  | 3 => 31
  | 4 => 30
  | 5 => 31
  | 6 => 30
  | 7 => 31
  | 8 => 31
  | 9 => 30
  | 10 => 31
  | 11 => 30
  | 12 => 31
  | _ => 0

def isDigitChar (c : Char) : Bool :=
  '0' ≤ c && c ≤ '9'

def digitVal (c : Char) : Nat :=
  c.toNat - 48

/-- Models `datetime.date.fromisoformat` on the one form every Python 3
version accepts: exactly `YYYY-MM-DD` with a valid Gregorian calendar date
(Python requires `year ≥ 1`); returns `none` on anything else (the
`ValueError` that `_parse_date` catches).  The parsing extensions specific to
Python ≥ 3.11 (compact `YYYYMMDD`, week dates) are not modelled. -/
def isoDateParse (s : String) : Option PyDate :=
  match s.toList with
  | [y1, y2, y3, y4, '-', m1, m2, '-', d1, d2] =>
    if isDigitChar y1 && isDigitChar y2 && isDigitChar y3 && isDigitChar y4 &&
       isDigitChar m1 && isDigitChar m2 && isDigitChar d1 && isDigitChar d2 then
      let y : Nat := ((digitVal y1 * 10 + digitVal y2) * 10 + digitVal y3) * 10 + digitVal y4
      let m : Nat := digitVal m1 * 10 + digitVal m2
      let d : Nat := digitVal d1 * 10 + digitVal d2
      if 1 ≤ y && 1 ≤ m && m ≤ 12 && 1 ≤ d && d ≤ daysInMonth (y : Int) m then
        some ⟨(y : Int), m, d⟩
      else
        none
    else
      none
  | _ => none

/-- A two-digit field value, `none` unless both characters are digits. -/
def twoDigit (a b : Char) : Option Nat :=
  if isDigitChar a && isDigitChar b then some (digitVal a * 10 + digitVal b) else none

def threeDigit (a b c : Char) : Option Nat :=
  if isDigitChar a && isDigitChar b && isDigitChar c then
    some ((digitVal a * 10 + digitVal b) * 10 + digitVal c)
  else
    none

/-- A validated `time` value (`hour ≤ 23`, `minute ≤ 59`, `second ≤ 59`, as
`datetime.time` requires). -/
def mkPyTime (h m sec usec : Nat) : Option PyTime :=
  if h ≤ 23 && m ≤ 59 && sec ≤ 59 then some ⟨h, m, sec, usec⟩ else none

/-- Models `datetime.time.fromisoformat` on the forms every Python 3 version
accepts: `HH`, `HH:MM`, `HH:MM:SS`, and `HH:MM:SS` with a 3- or 6-digit
fractional part; returns `none` on anything else (the `ValueError` that
`_parse_time` catches).  Not modelled: UTC-offset suffixes — they produce
aware `time` objects, which fall outside this naive-time model because the
pipeline's later `timezone.make_aware` call raises on them — and the parsing
extensions specific to Python ≥ 3.11 (compact `HHMM`, other fraction lengths,
a comma separator). -/
def isoTimeParse (s : String) : Option PyTime :=
  match s.toList with
  | [h1, h2] => do
    let h ← twoDigit h1 h2
    mkPyTime h 0 0 0
  | [h1, h2, ':', m1, m2] => do
    let h ← twoDigit h1 h2
    let m ← twoDigit m1 m2
    mkPyTime h m 0 0
  | [h1, h2, ':', m1, m2, ':', s1, s2] => do
    let h ← twoDigit h1 h2
    let m ← twoDigit m1 m2
    let sec ← twoDigit s1 s2
    mkPyTime h m sec 0
  | [h1, h2, ':', m1, m2, ':', s1, s2, '.', f1, f2, f3] => do
    let h ← twoDigit h1 h2
    let m ← twoDigit m1 m2
    let sec ← twoDigit s1 s2
    let milli ← threeDigit f1 f2 f3
    mkPyTime h m sec (milli * 1000)
  | [h1, h2, ':', m1, m2, ':', s1, s2, '.', f1, f2, f3, f4, f5, f6] => do
    let h ← twoDigit h1 h2
    let m ← twoDigit m1 m2
    let sec ← twoDigit s1 s2
    let hi ← threeDigit f1 f2 f3
    let lo ← threeDigit f4 f5 f6
    mkPyTime h m sec (hi * 1000 + lo)
  | _ => none

/-! ### Python JSON values

`PyVal` models the values `json.loads` can produce; `PyExc` models the Python
exception classes relevant to `_parse_response`. -/

inductive PyVal where
  | null : PyVal
  | bool : Bool → PyVal
  | num : ℚ → PyVal
  | str : String → PyVal
  | arr : List PyVal → PyVal
  | obj : List (String × PyVal) → PyVal

inductive PyExc where
  | jsonDecodeError : PyExc
  | keyError : PyExc
  | valueError : PyExc
  | typeError : PyExc
  | indexError : PyExc
  | attributeError : PyExc
  deriving DecidableEq, Repr

/-- The exception classes named by the `except` clause of
`EventExtractor._parse_response`: `(json.JSONDecodeError, KeyError, ValueError)`. -/
def caughtByParseClause : PyExc → Bool
  | .jsonDecodeError => true
  | .keyError => true
  | .valueError => true
  | _ => false

/-- Python truthiness of a JSON-derived value. -/
def pyTruthy : PyVal → Bool
  | .null => false
  | .bool b => b
  | .num q => if q = 0 then false else true
  | .str s => if s = "" then false else true
  | .arr xs => !xs.isEmpty
  | .obj xs => !xs.isEmpty

/-- Models `data.get(key, default)` on a dict produced by `json.loads`.  When
a key occurs twice in the JSON text, the dict `json.loads` builds keeps the
last occurrence, so lookup takes the last matching pair of the parsed list
(the recursion carries the most recent match as the new default). -/
def dictGet (k : String) (d : PyVal) : List (String × PyVal) → PyVal
  | [] => d
  | (k', v) :: rest => if k' = k then dictGet k v rest else dictGet k d rest

/-- Replaces the value stored under a key, leaving absent keys absent. -/
def dictSet (k : String) (v : PyVal) : List (String × PyVal) → List (String × PyVal)
  | [] => []
  | (k', w) :: rest => (k', if k' = k then v else w) :: dictSet k v rest

/-- Value of a digit string, most significant digit first. -/
def digitsValAux (acc : Nat) : List Char → Option Nat
  | [] => some acc
  | c :: rest => if isDigitChar c then digitsValAux (acc * 10 + digitVal c) rest else none

/-- Models conversion of a decimal text (optional sign, digits, optional
fractional part) to a number; exponents, `inf` and `nan` are not modelled. -/
def ratFromDecimalText (l : List Char) : Option ℚ :=
  let core : List Char → Option ℚ := fun l =>
    match l.splitOn '.' with
    | [a] =>
      if a.isEmpty then none
      else (digitsValAux 0 a).map (fun n => (n : ℚ))
    | [a, b] =>
      if a.isEmpty && b.isEmpty then none
      else
        match digitsValAux 0 a, digitsValAux 0 b with
        | some ia, some fb => some ((ia : ℚ) + (fb : ℚ) / ((10 : ℚ) ^ b.length))
        | _, _ => none
    | _ => none
  match l with
  | '-' :: rest => (core rest).map (fun q => -q)
  | '+' :: rest => core rest
  | _ => core l

def isJsonWs (c : Char) : Bool :=
  c = ' ' || c = '\n' || c = '\t' || c = '\r'

def skipWs (l : List Char) : List Char :=
  l.dropWhile isJsonWs

/-- Models Python `str.strip()` on the character list of the text. -/
def stripChars (l : List Char) : List Char :=
  (((l.dropWhile isJsonWs).reverse).dropWhile isJsonWs).reverse

/-- Models Python `str.lower()` character-wise (the captions and hashtags in
play are ASCII). -/
def lowerChars (l : List Char) : List Char :=
  l.map Char.toLower

def startsWithChars : List Char → List Char → Bool
  | [], _ => true
  | _ :: _, [] => false
  | n :: ns, h :: hs => n = h && startsWithChars ns hs

def dropLit (lit l : List Char) : Option (List Char) :=
  if startsWithChars lit l then some (l.drop lit.length) else none

def unescapeChar (c : Char) : Char :=
  if c = 'n' then '\n'
  else if c = 't' then '\t'
  else if c = 'r' then '\r'
  else c

/-- Scans a JSON string body up to the closing quote, resolving simple
escapes (`\u` sequences are not modelled). -/
def jsonStringChars : List Char → Option (List Char × List Char)
  | [] => none
  | '"' :: rest => some ([], rest)
  | '\\' :: e :: rest =>
    match jsonStringChars rest with
    | some (cs, r) => some (unescapeChar e :: cs, r)
    | none => none
  | c :: rest =>
    match jsonStringChars rest with
    | some (cs, r) => some (c :: cs, r)
    | none => none

def isNumChar (c : Char) : Bool :=
  isDigitChar c || c = '-' || c = '+' || c = '.'

mutual

/-- Fuel-indexed recursive-descent JSON reader modelling `json.loads`. -/
def parseJVal : Nat → List Char → Option (PyVal × List Char)
  | 0, _ => none
  | fuel + 1, l =>
    match skipWs l with
    | [] => none
    | c :: rest =>
      if c = 'n' then
        (dropLit ['u', 'l', 'l'] rest).map (fun r => (PyVal.null, r))
      else if c = 't' then
        (dropLit ['r', 'u', 'e'] rest).map (fun r => (PyVal.bool true, r))
      else if c = 'f' then
        (dropLit ['a', 'l', 's', 'e'] rest).map (fun r => (PyVal.bool false, r))
      else if c = '"' then
        (jsonStringChars rest).map (fun p => (PyVal.str (String.mk p.1), p.2))
      else if c = '[' then
        match skipWs rest with
        | ']' :: r => some (PyVal.arr [], r)
        | r => (parseJItems fuel r).map (fun p => (PyVal.arr p.1, p.2))
      else if c = '\x7b' then
        match skipWs rest with
        | '\x7d' :: r => some (PyVal.obj [], r)
        | r => (parseJFields fuel r).map (fun p => (PyVal.obj p.1, p.2))
      else if isNumChar c then
        let numChars := (c :: rest).takeWhile isNumChar
        let after := (c :: rest).dropWhile isNumChar
        (ratFromDecimalText numChars).map (fun q => (PyVal.num q, after))
      else
        none

/-- Reads the comma-separated items of a JSON array, after `[`. -/
def parseJItems : Nat → List Char → Option (List PyVal × List Char)
  | 0, _ => none
  | fuel + 1, l =>
    match parseJVal fuel l with
    | none => none
    | some (v, rest) =>
      match skipWs rest with
      | ',' :: r => (parseJItems fuel r).map (fun p => (v :: p.1, p.2))
      | ']' :: r => some ([v], r)
      | _ => none

/-- Reads the comma-separated pairs of a JSON object, after the opening brace. -/
def parseJFields : Nat → List Char → Option (List (String × PyVal) × List Char)
  | 0, _ => none
  | fuel + 1, l =>
    match skipWs l with
    | '"' :: rest =>
      match jsonStringChars rest with
      | none => none
      | some (kcs, r1) =>
        match skipWs r1 with
        | ':' :: r2 =>
          match parseJVal fuel r2 with
          | none => none
          | some (v, r3) =>
            match skipWs r3 with
            | ',' :: r4 => (parseJFields fuel r4).map (fun p => ((String.mk kcs, v) :: p.1, p.2))
            | '\x7d' :: r4 => some ([(String.mk kcs, v)], r4)
            | _ => none
        | _ => none
    | _ => none

end

/-- Models `json.loads` on the response text; a reject is the
`json.JSONDecodeError` that `_parse_response` catches. -/
def jsonLoads (s : String) : Except PyExc PyVal :=
  let l := s.toList
  match parseJVal (2 * l.length + 4) l with
  | some (v, rest) => if (skipWs rest).isEmpty then .ok v else .error .jsonDecodeError
  | none => .error .jsonDecodeError

/-! ### EventExtractor (extraction/event_extractor.py) -/

/-- The `ExtractedEvent` dataclass.  The free-text fields are annotated
`Optional[str]` in the source and consumed downstream only through Python
truthiness, so non-string JSON values are modelled as absent. -/
structure ExtractedEvent where
  is_event : Bool
  confidence : ℚ
  title : Option String := none
  description : Option String := none
  start_date : Option PyDate := none
  start_time : Option PyTime := none
  end_date : Option PyDate := none
  end_time : Option PyTime := none
  location : Option String := none
  suggested_category : Option String := none
  deriving DecidableEq, Repr

/-- The fail-closed value `ExtractedEvent(is_event=False, confidence=0.0)`. -/
def failClosedExtraction : ExtractedEvent :=
  { is_event := false, confidence := 0 }

/-- Models `EventExtractor._parse_date` applied to the JSON value found in the
response: falsy values give `None`; strings go through `date.fromisoformat`
with the `ValueError` caught (`None` on failure); truthy non-strings make
`date.fromisoformat` raise `TypeError`, which `_parse_date` does not catch. -/
def parseDateField (v : PyVal) : Except PyExc (Option PyDate) :=
  if pyTruthy v = false then .ok none
  else
    match v with
    | .str s => .ok (isoDateParse s)
    | _ => .error .typeError

/-- Models `EventExtractor._parse_time`, analogously to `parseDateField`. -/
def parseTimeField (v : PyVal) : Except PyExc (Option PyTime) :=
  if pyTruthy v = false then .ok none
  else
    match v with
    | .str s => .ok (isoTimeParse s)
    | _ => .error .typeError

/-- Models Python `float(x)` on a JSON-derived value: numbers pass through,
booleans become 0/1, numeric strings convert (`ValueError` otherwise), and
`None`/lists/dicts raise `TypeError`. -/
def pyFloat (v : PyVal) : Except PyExc ℚ :=
  match v with
  | .num q => .ok q
  | .bool b => .ok (if b then 1 else 0)
  | .str s =>
    match ratFromDecimalText s.toList with
    | some q => .ok q
    | none => .error .valueError
  | .null => .error .typeError
  | .arr _ => .error .typeError
  | .obj _ => .error .typeError

def asOptStr (v : PyVal) : Option String :=
  match v with
  | .str s => some s
  | _ => none

/-- Models the `ExtractedEvent(...)` construction inside `_parse_response`,
field by field from the decoded JSON object. -/
def buildExtracted (fields : List (String × PyVal)) : Except PyExc ExtractedEvent := do
  let conf ← pyFloat (dictGet "confidence" (.num 0) fields)
  let sd ← parseDateField (dictGet "start_date" .null fields)
  let st ← parseTimeField (dictGet "start_time" .null fields)
  let ed ← parseDateField (dictGet "end_date" .null fields)
  let et ← parseTimeField (dictGet "end_time" .null fields)
  pure
    { is_event := pyTruthy (dictGet "is_event" (.bool false) fields)
      confidence := conf
      title := asOptStr (dictGet "title" .null fields)
      description := asOptStr (dictGet "description" .null fields)
      start_date := sd
      start_time := st
      end_date := ed
      end_time := et
      location := asOptStr (dictGet "location" .null fields)
      suggested_category := asOptStr (dictGet "suggested_category" .null fields) }

def fenceAt : List Char → Bool
  | '`' :: '`' :: '`' :: _ => true
  | _ => false

def afterFirstNewline : List Char → Option (List Char)
  | [] => none
  | '\n' :: rest => some rest
  | _ :: rest => afterFirstNewline rest

/-- Position-preserving prefix of the text before the last occurrence of
a triple-backtick fence, `none` when no fence occurs. -/
def cutLastFenceAux : List Char → Option (List Char)
  | [] => none
  | c :: rest =>
    match cutLastFenceAux rest with
    | some r => some (c :: r)
    | none => if fenceAt (c :: rest) then some [] else none

def cutLastFence (l : List Char) : List Char :=
  (cutLastFenceAux l).getD l

/-- Models the code-fence stripping of `_parse_response`:
`text.split('\n', 1)[1]` raises `IndexError` when the fenced text has no
newline at all, then `.rsplit('` ``'...`, 1)[0]` keeps what precedes the last
fence (the whole text when no further fence occurs). -/
def stripFenceText (l : List Char) : Except PyExc (List Char) :=
  if fenceAt l then
    match afterFirstNewline l with
    | none => .error .indexError
    | some rest => .ok (cutLastFence rest)
  else
    .ok l

/-- The decoded JSON object of a model response: `strip()`, optional fence
stripping, `json.loads`, and the `.get` method resolution that raises
`AttributeError` when the JSON value is not an object. -/
def responseFields (response_text : String) : Except PyExc (List (String × PyVal)) := do
  let chars ← stripFenceText (stripChars response_text.toList)
  let v ← jsonLoads (String.mk chars)
  match v with
  | .obj fields => pure fields
  | _ => .error .attributeError

/-- The body of `EventExtractor._parse_response` before its `except` clause. -/
def parseResponseRaw (response_text : String) : Except PyExc ExtractedEvent := do
  let fields ← responseFields response_text
  buildExtracted fields

/-- Models `EventExtractor._parse_response`: the body above guarded by
`except (json.JSONDecodeError, KeyError, ValueError)`, which converts those
three exception classes — and only those — into the fail-closed value. -/
def parseResponse (response_text : String) : Except PyExc ExtractedEvent :=
  match parseResponseRaw response_text with
  | .ok e => .ok e
  | .error ex => if caughtByParseClause ex then .ok failClosedExtraction else .error ex

/-- Models the response handling inside `EventExtractor.extract`: the call to
`_parse_response` sits inside `extract`'s `try`, whose `except Exception`
returns the fail-closed value, so no exception propagates to the caller. -/
def extractOnResponse (response_text : String) : ExtractedEvent :=
  match parseResponse response_text with
  | .ok e => e
  | .error _ => failClosedExtraction

/-- The extractor object as the orchestrator sees it: its
`confidence_threshold` (default 0.6) and the end-to-end outcome of
`extract(caption, business)` for the business of the run — one LLM round trip
plus response handling, which by `extractOnResponse` is total. -/
structure EventExtractor where
  confidence_threshold : ℚ := 6 / 10
  extractFn : String → ExtractedEvent

/-! ### ScraperInstagramService (services/scraper.py) -/

/-- One entry of the upstream scraping API's `data` list, with the keys
`fetch_user_posts_by_hashtag` reads (`post.get(...)` defaults applied by the
accessors below). -/
structure RawApiPost where
  id : String
  caption : Option String
  display_url : String
  taken_at_timestamp : Int
  shortcode : String
  deriving DecidableEq, Repr

/-- The normalized `InstagramPost` dataclass of services/base.py. -/
structure InstagramPost where
  post_id : String
  caption : String
  image_url : String
  posted_at : Int
  permalink : String
  username : String
  deriving DecidableEq, Repr

/-- The exception hierarchy of services/base.py, each carrying its `str(e)`
message. -/
inductive InstagramServiceFailure where
  | rateLimit : String → InstagramServiceFailure
  | userNotFound : String → InstagramServiceFailure
  | serviceError : String → InstagramServiceFailure
  deriving DecidableEq, Repr

def failureMessage : InstagramServiceFailure → String
  | .rateLimit m => m
  | .userNotFound m => m
  | .serviceError m => m

def hasSubstrChars (hay needle : List Char) : Bool :=
  hay.tails.any (fun t => startsWithChars needle t)

/-- Models `post.get('caption', '') or ''`. -/
def rawCaption (r : RawApiPost) : String :=
  r.caption.getD ""

def mkInstagramPost (username : String) (r : RawApiPost) : InstagramPost :=
  { post_id := r.id
    caption := rawCaption r
    image_url := r.display_url
    posted_at := r.taken_at_timestamp
    permalink := "https://www.instagram.com/p/" ++ r.shortcode ++ "/"
    username := username }

/-- The collection loop of `fetch_user_posts_by_hashtag`: scan the (already
sliced) upstream list in order, keep posts whose lowercased caption contains
the needle, and break once `limit` posts are collected (the check follows each
append, so a budget of 1 stops right after a match). -/
def collectMatching (username : String) (needle : List Char) : Nat → List RawApiPost → List InstagramPost
  | _, [] => []
  | limit, r :: rs =>
    if hasSubstrChars (lowerChars (rawCaption r).toList) needle then
      if limit ≤ 1 then [mkInstagramPost username r]
      else mkInstagramPost username r :: collectMatching username needle (limit - 1) rs
    else
      collectMatching username needle limit rs

/-- Models `ScraperInstagramService.fetch_user_posts_by_hashtag`.  The HTTP
call is a parameter: `.error ()` is a `requests.RequestException`, `.ok`
carries the status code and the decoded `data` list.  Only the first
`limit * 2` upstream posts are scanned, and the needle is
`'#' + hashtag.lower()` matched against `caption.lower()`. -/
def fetch_user_posts_by_hashtag (api_key : String)
    (upstream : Except Unit (Nat × List RawApiPost))
    (username hashtag : String) (limit : Nat) :
    Except InstagramServiceFailure (List InstagramPost) :=
  if api_key = "" then .error (.serviceError "RAPIDAPI_KEY not configured")
  else
    match upstream with
    | .error _ => .error (.serviceError "Network error")
    | .ok (statusCode, postsData) =>
      if statusCode = 429 then .error (.rateLimit "Rate limited by Instagram API")
      else if statusCode = 404 then .error (.userNotFound ("User @" ++ username ++ " not found"))
      else if statusCode ≠ 200 then .error (.serviceError ("API error: " ++ toString statusCode))
      else
        .ok (collectMatching username ('#' :: lowerChars hashtag.toList) limit (postsData.take (limit * 2)))

/-! ### Import orchestrator (services/import_service.py, models.py) -/

/-- The tenant, with `can_use_premium_customization()` abstracted to the
boolean it returns and the venue relation to its ordered address list. -/
structure Business where
  id : Nat
  name : String
  instagram_handle : String
  premium : Bool
  venue_addresses : List String
  deriving DecidableEq, Repr

/-- One `InstagramPostLog` row (models.py); `(business_id, instagram_post_id)`
carries the `unique_together` constraint, enforced at insert time below. -/
structure LedgerEntry where
  business_id : Nat
  instagram_post_id : String
  event_id : Option Nat
  original_permalink : String
  original_caption : String
  deriving DecidableEq, Repr

/-- The draft `Event` row as `_create_draft_event` fills it. The best-effort
image attachment step is swallowed on failure and does not affect any claimed
behaviour, so the image field is not modelled. -/
structure Event where
  id : Nat
  host_business : Nat
  title : String
  description : String
  address : String
  latitude : Int
  longitude : Int
  start_datetime : Int
  end_datetime : Int
  status : String
  deriving DecidableEq, Repr

/-- Database state visible to the pipeline: event rows, ledger rows, and the
next autoincrement event id. -/
structure DbState where
  events : List Event
  ledger : List LedgerEntry
  nextEventId : Nat
  deriving DecidableEq, Repr

/-- The `ImportResult` dataclass. -/
structure ImportResult where
  imported : Nat := 0
  skipped_duplicate : Nat := 0
  skipped_not_event : Nat := 0
  skipped_error : Nat := 0
  draft_ids : List Nat := []
  error : Option String := none
  deriving DecidableEq, Repr

/-- Injected environment failures for one post of the batch:
`draftRaises` makes `Event.objects.create` raise, and `concurrentInsert`
makes a concurrent run insert the same `(business, post_id)` ledger row after
this run's pre-filter snapshot and before its `record` call — the race of
spec §5. -/
structure PostFault where
  draftRaises : Bool := false
  concurrentInsert : Bool := false
  deriving DecidableEq, Repr

def noFault : PostFault := {}

/-- Models Python's `x or default` on an optional string (both `None` and the
empty string are falsy). -/
def pyOrStr (v : Option String) (dflt : String) : String :=
  match v with
  | some s => if s = "" then dflt else s
  | none => dflt

def optStrFalsy (v : Option String) : Bool :=
  match v with
  | some s => s = ""
  | none => true

/-- Models `InstagramImportService._create_draft_event` (the image-attachment
tail is best-effort and swallowed).  Returns the created row and the database
with the row appended; `today` is `timezone.now().date()`. -/
def create_draft_event (business : Business) (post : InstagramPost)
    (extracted : ExtractedEvent) (today : PyDate) (db : DbState) : Event × DbState :=
  let start_date := extracted.start_date.getD today
  let start_time := extracted.start_time.getD ⟨12, 0, 0, 0⟩
  let start_dt := pyCombineSeconds start_date start_time
  let end_dt :=
    match extracted.end_time with
    | some et => pyCombineSeconds (extracted.end_date.getD start_date) et
    | none => start_dt + 7200
  let location :=
    if optStrFalsy extracted.location && !business.venue_addresses.isEmpty then
      business.venue_addresses.head?
    else
      extracted.location
  let event : Event :=
    { id := db.nextEventId
      host_business := business.id
      title := pyOrStr extracted.title ("Event by " ++ business.name)
      description := pyOrStr extracted.description (String.mk (post.caption.toList.take 500))
      address := pyOrStr location "Location TBD"
      latitude := 0
      longitude := 0
      start_datetime := start_dt
      end_datetime := end_dt
      status := "pending" }
  (event, { db with events := db.events ++ [event], nextEventId := db.nextEventId + 1 })

/-- Whether a `(business, instagram_post_id)` pair is present in a ledger
row list — the predicate the `unique_together` constraint enforces. -/
def pairInL (ledger : List LedgerEntry) (bid : Nat) (pid : String) : Bool :=
  ledger.any (fun e => e.business_id = bid && e.instagram_post_id = pid)

/-- The pre-filter snapshot: `instagram_post_id` of the rows of one business,
in row order (the `values_list` query of `import_posts`). -/
def ledgerIdsL (ledger : List LedgerEntry) (bid : Nat) : List String :=
  (ledger.filter (fun e => e.business_id = bid)).map (fun e => e.instagram_post_id)

def mkLedgerEntry (business : Business) (post : InstagramPost) (eid : Option Nat) : LedgerEntry :=
  { business_id := business.id
    instagram_post_id := post.post_id
    event_id := eid
    original_permalink := post.permalink
    original_caption := post.caption }

/-- State carried through the per-post loop. -/
structure RunState where
  result : ImportResult
  db : DbState
  deriving DecidableEq, Repr

/-- One iteration of the per-post loop of `import_posts`: dedupe against the
snapshot, extract, confidence gate, then the `try` block — draft creation,
counting the post as imported, and the ledger `create`, whose
`unique_together` violation (or any other exception) lands in the generic
`except` that bumps `skipped_error`.  Note the source increments `imported`
and appends the draft id before the ledger write, and nothing is rolled back
when that write raises. -/
def processPost (business : Business) (extractor : EventExtractor) (today : PyDate)
    (existing_ids : List String) (fault : PostFault) (post : InstagramPost)
    (st : RunState) : RunState :=
  if post.post_id ∈ existing_ids then
    { st with result := { st.result with skipped_duplicate := st.result.skipped_duplicate + 1 } }
  else
    let extracted := extractor.extractFn post.caption
    if extracted.is_event = false ∨ extracted.confidence < extractor.confidence_threshold then
      { st with result := { st.result with skipped_not_event := st.result.skipped_not_event + 1 } }
    else
      let db0 :=
        if fault.concurrentInsert then
          { st.db with ledger := st.db.ledger ++ [mkLedgerEntry business post none] }
        else st.db
      if fault.draftRaises then
        { result := { st.result with skipped_error := st.result.skipped_error + 1 }, db := db0 }
      else
        let created := create_draft_event business post extracted today db0
        let r1 := { st.result with
                      draft_ids := st.result.draft_ids ++ [created.1.id]
                      imported := st.result.imported + 1 }
        if pairInL created.2.ledger business.id post.post_id then
          { result := { r1 with skipped_error := r1.skipped_error + 1 }, db := created.2 }
        else
          { result := r1
            db := { created.2 with
                      ledger := created.2.ledger ++ [mkLedgerEntry business post (some created.1.id)] } }

/-- The `for post in posts` loop, with per-post injected faults indexed by
position. -/
def processLoop (business : Business) (extractor : EventExtractor) (today : PyDate)
    (existing_ids : List String) (faults : Nat → PostFault) :
    Nat → List InstagramPost → RunState → RunState
  | _, [], st => st
  | idx, post :: rest, st =>
    processLoop business extractor today existing_ids faults (idx + 1) rest
      (processPost business extractor today existing_ids (faults idx) post st)

/-- Models `InstagramImportService.import_posts`: the premium gate, the handle
gate, the fetch through the injected `InstagramService` (always with hashtag
`'popmap'`), the pre-filter snapshot, and the per-post loop. -/
def import_posts (business : Business)
    (fetch : String → String → Nat → Except InstagramServiceFailure (List InstagramPost))
    (extractor : EventExtractor) (faults : Nat → PostFault) (today : PyDate)
    (db : DbState) (limit : Nat) : ImportResult × DbState :=
  if business.premium = false then
    ({ error := some "Premium subscription required for Instagram import" }, db)
  else if business.instagram_handle = "" then
    ({ error := some "No Instagram handle configured" }, db)
  else
    match fetch business.instagram_handle "popmap" limit with
    | .error e => ({ error := some (failureMessage e) }, db)
    | .ok posts =>
      let existing_ids := ledgerIdsL db.ledger business.id
      let st := processLoop business extractor today existing_ids faults 0 posts
        { result := {}, db := db }
      (st.result, st.db)

/-! ### InstagramImportView.post (views.py) -/

structure HttpResponse where
  statusCode : Nat
  body_error : Option String
  body_result : Option ImportResult
  deriving DecidableEq, Repr

/-- Models `InstagramImportView.post`: 404 without a business, 403 on the
premium check, 400 on a missing handle, then one `import_posts` run whose
`error`, when set, is returned as HTTP 400 with an error body, and otherwise
as HTTP 200 with the serialized result. -/
def instagram_import_view_post (businessOpt : Option Business)
    (fetch : String → String → Nat → Except InstagramServiceFailure (List InstagramPost))
    (extractor : EventExtractor) (faults : Nat → PostFault) (today : PyDate)
    (db : DbState) : HttpResponse × DbState :=
  match businessOpt with
  | none => (⟨404, some "No business found for this user", none⟩, db)
  | some business =>
    if business.premium = false then
      (⟨403, some "Premium subscription required for Instagram import", none⟩, db)
    else if business.instagram_handle = "" then
      (⟨400, some "No Instagram handle configured. Please add your Instagram handle in settings.", none⟩, db)
    else
      let run := import_posts business fetch extractor faults today db 20
      match run.1.error with
      | some e => (⟨400, some e, none⟩, run.2)
      | none => (⟨200, none, some run.1⟩, run.2)

/-! ### Derived predicates used by the theorems -/

/-- The confidence gate of `import_posts`, as a boolean on the extraction of a
caption: the post proceeds past the gate iff `is_event` holds and
`confidence < threshold` fails. -/
def acceptsB (x : EventExtractor) (caption : String) : Bool :=
  (x.extractFn caption).is_event &&
    !(decide ((x.extractFn caption).confidence < x.confidence_threshold))

/-- Whether the pre-filter snapshot marks a post as a duplicate. -/
def dupB (snapshot : List String) (p : InstagramPost) : Bool :=
  decide (p.post_id ∈ snapshot)

/-- A post that passes both the dedupe pre-filter and the confidence gate. -/
def importedP (x : EventExtractor) (snapshot : List String) (p : InstagramPost) : Bool :=
  !(dupB snapshot p) && acceptsB x p.caption

def counterSum (r : ImportResult) : Nat :=
  r.imported + r.skipped_duplicate + r.skipped_not_event + r.skipped_error

/-! ### Concrete sample data for witnesses and counterexamples -/

def sampleBusiness : Business := ⟨1, "Test Bakery", "testbakery", true, []⟩

def freeBusiness : Business := ⟨2, "Free Biz", "freebiz", false, []⟩

/-- The default threshold value 0.6 with literal numerator and denominator,
so that concrete runs evaluate inside the kernel. -/
def sampleThreshold : ℚ := ⟨3, 5, by norm_num, by norm_num⟩

/-- 0.59999, epsilon below the default threshold. -/
def belowConf : ℚ := ⟨59999, 100000, by norm_num, by norm_num⟩

def acceptAllExtractor : EventExtractor :=
  ⟨sampleThreshold, fun _ => { is_event := true, confidence := 1 }⟩

/-- Extraction whose confidence is exactly the default threshold. -/
def boundaryExtractor : EventExtractor :=
  ⟨sampleThreshold, fun _ => { is_event := true, confidence := sampleThreshold }⟩

/-- Extraction whose confidence is epsilon below the default threshold. -/
def belowExtractor : EventExtractor :=
  ⟨sampleThreshold, fun _ => { is_event := true, confidence := belowConf }⟩

def samplePostA : InstagramPost :=
  ⟨"pidA", "event A #popmap", "", 0, "https://www.instagram.com/p/pA/", "testbakery"⟩

def samplePostB : InstagramPost :=
  ⟨"pidB", "event B #popmap", "", 0, "https://www.instagram.com/p/pB/", "testbakery"⟩

def sampleToday : PyDate := ⟨2026, 10, 12⟩

def emptyDb : DbState := ⟨[], [], 0⟩

/-- A database whose ledger already holds `(sampleBusiness, "pidA")`. -/
def overlapDb : DbState := ⟨[], [⟨1, "pidA", none, "", ""⟩], 0⟩

def cleanFaults : Nat → PostFault := fun _ => noFault

/-- The concurrent-duplicate race fires on the first post of the batch. -/
def raceOnFirst : Nat → PostFault := fun i => if i = 0 then ⟨false, true⟩ else noFault

def fetchAB : String → String → Nat → Except InstagramServiceFailure (List InstagramPost) :=
  fun _ _ _ => .ok [samplePostA, samplePostB]

def fetchA : String → String → Nat → Except InstagramServiceFailure (List InstagramPost) :=
  fun _ _ _ => .ok [samplePostA]

def fetchEmpty : String → String → Nat → Except InstagramServiceFailure (List InstagramPost) :=
  fun _ _ _ => .ok []

def rateFetch : String → String → Nat → Except InstagramServiceFailure (List InstagramPost) :=
  fun _ _ _ => .error (.rateLimit "Rate limited by Instagram API")

def initRun : RunState := ⟨{}, emptyDb⟩

/-- Extraction for the C5 counterexample: an end time without an end date. -/
def endTimeOnlyExtraction : ExtractedEvent :=
  { is_event := true, confidence := 1, start_date := some ⟨2026, 1, 25⟩,
    start_time := some ⟨10, 0, 0, 0⟩, end_date := none, end_time := some ⟨15, 0, 0, 0⟩ }

def rawMixedCase : RawApiPost := ⟨"r1", some "party! #PopMap yay", "u", 0, "sc"⟩

def rawNoTag : RawApiPost := ⟨"r2", some "nothing here", "u", 0, "sc2"⟩

/-! ### Theorems -/

/-- C3 counterexample: the truncated, code-fenced model response consisting of
a lone opening fence has no newline, so `text.split('\n', 1)[1]` inside
`_parse_response` raises `IndexError`, which its `except (json.JSONDecodeError,
KeyError, ValueError)` clause does not catch — `_parse_response` raises
instead of returning the fail-closed `ExtractedEvent`. -/
theorem c3_parse_raises_counterexample :
    parseResponse "```" = .error .indexError := by decide

/-- C3 (amended): `_parse_response` alone can raise on some malformed
responses (see the counterexample), but the response handling of `extract`
wraps it in a catch-all, so for every model response text it either returns
the successfully parsed event or the fail-closed value with `is_event = false`
and `confidence = 0.0`; no exception propagates out of `extract`. -/
theorem c3_extract_fail_closed (s : String) :
    (∃ e, parseResponse s = .ok e ∧ extractOnResponse s = e) ∨
      (extractOnResponse s = failClosedExtraction ∧
        (extractOnResponse s).is_event = false ∧ (extractOnResponse s).confidence = 0) := by
  unfold extractOnResponse
  cases h : parseResponse s with
  | ok e => exact .inl ⟨e, rfl, rfl⟩
  | error ex => exact .inr ⟨rfl, rfl, rfl⟩

/-- C5 counterexample: with an extracted end time (15:00) but no extracted end
date, the draft's `end_datetime` is not `start_datetime + 2 hours` — the code
keys the default only on `end_time`, combining the missing end date with the
start date instead. -/
theorem c5_end_default_counterexample :
    (create_draft_event sampleBusiness samplePostA endTimeOnlyExtraction sampleToday emptyDb).1.end_datetime ≠
      (create_draft_event sampleBusiness samplePostA endTimeOnlyExtraction sampleToday emptyDb).1.start_datetime + 7200 := by
  decide

/-- C5 (amended): the draft's `end_datetime` is the combination of the
extracted end time with the extracted end date (defaulting the missing end
date to the start date) whenever an end time was extracted, and
`start_datetime + 2 hours` only when the end time is absent. -/
theorem c5_end_datetime (business : Business) (post : InstagramPost)
    (extracted : ExtractedEvent) (today : PyDate) (db : DbState) :
    (create_draft_event business post extracted today db).1.end_datetime =
      match extracted.end_time with
      | some et =>
        pyCombineSeconds (extracted.end_date.getD (extracted.start_date.getD today)) et
      | none =>
        (create_draft_event business post extracted today db).1.start_datetime + 7200 := by
  cases h : extracted.end_time <;> simp [create_draft_event, h]

/-- C8: a tenant failing the premium gate or lacking a configured handle gets
a result with zero counters, no draft ids, and a non-null error; the database
is untouched and the outcome does not depend on the fetch, the extractor, the
injected faults, the date, or the limit — no fetch call, ledger write, or
draft creation is observable. -/
theorem c8_gate_no_side_effects (business : Business)
    (fetch₁ fetch₂ : String → String → Nat → Except InstagramServiceFailure (List InstagramPost))
    (x₁ x₂ : EventExtractor) (f₁ f₂ : Nat → PostFault) (t₁ t₂ : PyDate)
    (db : DbState) (limit₁ limit₂ : Nat)
    (h : business.premium = false ∨ business.instagram_handle = "") :
    (import_posts business fetch₁ x₁ f₁ t₁ db limit₁).1.imported = 0 ∧
    (import_posts business fetch₁ x₁ f₁ t₁ db limit₁).1.skipped_duplicate = 0 ∧
    (import_posts business fetch₁ x₁ f₁ t₁ db limit₁).1.skipped_not_event = 0 ∧
    (import_posts business fetch₁ x₁ f₁ t₁ db limit₁).1.skipped_error = 0 ∧
    (import_posts business fetch₁ x₁ f₁ t₁ db limit₁).1.draft_ids = [] ∧
    (import_posts business fetch₁ x₁ f₁ t₁ db limit₁).1.error.isSome = true ∧
    (import_posts business fetch₁ x₁ f₁ t₁ db limit₁).2 = db ∧
    import_posts business fetch₁ x₁ f₁ t₁ db limit₁ = import_posts business fetch₂ x₂ f₂ t₂ db limit₂ := by
  rcases h with h | h
  · simp [import_posts, h]
  · by_cases hp : business.premium = false
    · simp [import_posts, hp]
    · simp [import_posts, hp, h]

/-- C8 witness: the gate theorem applied to a concrete non-premium tenant,
with two unrelated fetch outcomes. -/
theorem c8_gate_witness :
    (import_posts freeBusiness rateFetch acceptAllExtractor cleanFaults sampleToday emptyDb 20).1.imported = 0 ∧
    (import_posts freeBusiness rateFetch acceptAllExtractor cleanFaults sampleToday emptyDb 20).1.skipped_duplicate = 0 ∧
    (import_posts freeBusiness rateFetch acceptAllExtractor cleanFaults sampleToday emptyDb 20).1.skipped_not_event = 0 ∧
    (import_posts freeBusiness rateFetch acceptAllExtractor cleanFaults sampleToday emptyDb 20).1.skipped_error = 0 ∧
    (import_posts freeBusiness rateFetch acceptAllExtractor cleanFaults sampleToday emptyDb 20).1.draft_ids = [] ∧
    (import_posts freeBusiness rateFetch acceptAllExtractor cleanFaults sampleToday emptyDb 20).1.error.isSome = true ∧
    (import_posts freeBusiness rateFetch acceptAllExtractor cleanFaults sampleToday emptyDb 20).2 = emptyDb ∧
    import_posts freeBusiness rateFetch acceptAllExtractor cleanFaults sampleToday emptyDb 20 =
      import_posts freeBusiness fetchAB boundaryExtractor raceOnFirst sampleToday emptyDb 5 :=
  c8_gate_no_side_effects freeBusiness rateFetch fetchAB acceptAllExtractor boundaryExtractor
    cleanFaults raceOnFirst sampleToday sampleToday emptyDb 20 5 (Or.inl rfl)

/-- C9 counterexample: with a premium tenant and a configured handle, a
rate-limited upstream makes `import_posts` return an error result, and the
view answers HTTP 400 carrying that error — not the HTTP 200 soft-fail the
claim describes. -/
theorem c9_status_counterexample :
    (instagram_import_view_post (some sampleBusiness) rateFetch acceptAllExtractor
        cleanFaults sampleToday emptyDb).1 =
      ⟨400, some "Rate limited by Instagram API", none⟩ := rfl

/-- C9 (amended): whenever the run result carries an error for a tenant that
passed the view's premium and handle pre-checks — e.g. rate limiting or
service unavailability — the endpoint responds with HTTP 400 (not 200) and the
body's error field is populated with the failure reason. -/
theorem c9_run_error_is_400 (business : Business)
    (fetch : String → String → Nat → Except InstagramServiceFailure (List InstagramPost))
    (x : EventExtractor) (faults : Nat → PostFault) (today : PyDate) (db : DbState)
    (msg : String)
    (hprem : business.premium = true)
    (hhandle : business.instagram_handle ≠ "")
    (herr : (import_posts business fetch x faults today db 20).1.error = some msg) :
    (instagram_import_view_post (some business) fetch x faults today db).1 =
      ⟨400, some msg, none⟩ := by
  simp [instagram_import_view_post, hprem, hhandle, herr]

/-- C4: for a non-duplicate post whose extraction has `is_event = true`, the
per-post step leaves `skipped_not_event` unchanged exactly when the confidence
is at least the extractor's threshold; in that case the post proceeds to draft
creation (`imported + skipped_error` strictly grows), and otherwise the step
does nothing but bump `skipped_not_event`. -/
theorem c4_confidence_gate (business : Business) (x : EventExtractor) (today : PyDate)
    (snapshot : List String) (fault : PostFault) (post : InstagramPost) (st : RunState)
    (hdup : post.post_id ∉ snapshot)
    (hev : (x.extractFn post.caption).is_event = true) :
    ((processPost business x today snapshot fault post st).result.skipped_not_event
        = st.result.skipped_not_event ↔
      x.confidence_threshold ≤ (x.extractFn post.caption).confidence) ∧
    (x.confidence_threshold ≤ (x.extractFn post.caption).confidence →
      st.result.imported + st.result.skipped_error <
        (processPost business x today snapshot fault post st).result.imported +
          (processPost business x today snapshot fault post st).result.skipped_error) ∧
    ((x.extractFn post.caption).confidence < x.confidence_threshold →
      processPost business x today snapshot fault post st =
        { st with result :=
            { st.result with skipped_not_event := st.result.skipped_not_event + 1 } }) := by
  by_cases hc : (x.extractFn post.caption).confidence < x.confidence_threshold
  · have hgate : (x.extractFn post.caption).is_event = false ∨
        (x.extractFn post.caption).confidence < x.confidence_threshold := Or.inr hc
    refine ⟨?_, ?_, ?_⟩
    · simp [processPost, hdup, hgate, not_le.mpr hc]
    · intro hle
      exact absurd hle (not_le.mpr hc)
    · intro _
      simp [processPost, hdup, hgate]
  · have hgate : ¬((x.extractFn post.caption).is_event = false ∨
        (x.extractFn post.caption).confidence < x.confidence_threshold) := by
      simp [hev, hc]
    have hle : x.confidence_threshold ≤ (x.extractFn post.caption).confidence := not_lt.mp hc
    refine ⟨?_, ?_, ?_⟩
    · simp only [processPost, if_neg hdup, if_neg hgate]
      by_cases hf : fault.draftRaises
      all_goals
        by_cases hpl : pairInL (create_draft_event business post (x.extractFn post.caption)
            today (if fault.concurrentInsert then
              { st.db with ledger := st.db.ledger ++ [mkLedgerEntry business post none] }
            else st.db)).2.ledger business.id post.post_id
      all_goals simp [hf, hpl, hle]
    · intro _
      simp only [processPost, if_neg hdup, if_neg hgate]
      by_cases hf : fault.draftRaises
      all_goals
        by_cases hpl : pairInL (create_draft_event business post (x.extractFn post.caption)
            today (if fault.concurrentInsert then
              { st.db with ledger := st.db.ledger ++ [mkLedgerEntry business post none] }
            else st.db)).2.ledger business.id post.post_id
      all_goals
        simp [hf, hpl]
      all_goals omega
    · intro hlt
      exact absurd hlt hc

/-- C4 witness: the gate at the default threshold 0.6 accepts a confidence of
exactly 0.6 and skips 0.59999 as not-an-event. -/
theorem c4_confidence_gate_witness :
    ((processPost sampleBusiness boundaryExtractor sampleToday [] noFault samplePostA
        initRun).result.skipped_not_event = initRun.result.skipped_not_event) ∧
    (processPost sampleBusiness belowExtractor sampleToday [] noFault samplePostA initRun =
      { initRun with result :=
          { initRun.result with
              skipped_not_event := initRun.result.skipped_not_event + 1 } }) := by
  refine ⟨?_, ?_⟩
  · exact (c4_confidence_gate sampleBusiness boundaryExtractor sampleToday [] noFault
      samplePostA initRun (by decide) rfl).1.mpr (le_refl _)
  · exact (c4_confidence_gate sampleBusiness belowExtractor sampleToday [] noFault
      samplePostA initRun (by decide) rfl).2.2 (by decide)

theorem collectMatching_cons_pos (u : String) (n : List Char) (k : Nat) (r : RawApiPost)
    (rs : List RawApiPost) (hm : hasSubstrChars (lowerChars (rawCaption r).toList) n = true) :
    collectMatching u n k (r :: rs) =
      if k ≤ 1 then [mkInstagramPost u r]
      else mkInstagramPost u r :: collectMatching u n (k - 1) rs := by
  simp only [collectMatching, hm, if_true]

theorem collectMatching_cons_neg (u : String) (n : List Char) (k : Nat) (r : RawApiPost)
    (rs : List RawApiPost) (hm : hasSubstrChars (lowerChars (rawCaption r).toList) n = false) :
    collectMatching u n k (r :: rs) = collectMatching u n k rs := by
  simp only [collectMatching, hm, Bool.false_eq_true, if_false]

theorem collectMatching_length (u : String) (n : List Char) :
    ∀ (k : Nat) (l : List RawApiPost), 1 ≤ k → (collectMatching u n k l).length ≤ k := by
  intro k l
  induction l generalizing k with
  | nil => intro _; simp [collectMatching]
  | cons r rs ih =>
    intro hk
    cases hm : hasSubstrChars (lowerChars (rawCaption r).toList) n with
    | true =>
      rw [collectMatching_cons_pos u n k r rs hm]
      by_cases h1 : k ≤ 1
      · simp [h1]; omega
      · have := ih (k - 1) (by omega)
        simp only [if_neg h1, List.length_cons]
        omega
    | false =>
      rw [collectMatching_cons_neg u n k r rs hm]
      exact ih k hk

theorem collectMatching_caption (u : String) (n : List Char) :
    ∀ (k : Nat) (l : List RawApiPost) (p : InstagramPost), p ∈ collectMatching u n k l →
      hasSubstrChars (lowerChars p.caption.toList) n = true := by
  intro k l
  induction l generalizing k with
  | nil => simp [collectMatching]
  | cons r rs ih =>
    intro p hp
    cases hm : hasSubstrChars (lowerChars (rawCaption r).toList) n with
    | true =>
      rw [collectMatching_cons_pos u n k r rs hm] at hp
      by_cases h1 : k ≤ 1
      · rw [if_pos h1, List.mem_singleton] at hp
        subst hp
        exact hm
      · rw [if_neg h1, List.mem_cons] at hp
        rcases hp with hp | hp
        · subst hp
          exact hm
        · exact ih (k - 1) p hp
    | false =>
      rw [collectMatching_cons_neg u n k r rs hm] at hp
      exact ih k p hp

theorem collectMatching_sublist (u : String) (n : List Char) :
    ∀ (k : Nat) (l : List RawApiPost), ∃ chosen : List RawApiPost, chosen.Sublist l ∧
      collectMatching u n k l = chosen.map (mkInstagramPost u) := by
  intro k l
  induction l generalizing k with
  | nil => exact ⟨[], List.Sublist.refl [], rfl⟩
  | cons r rs ih =>
    cases hm : hasSubstrChars (lowerChars (rawCaption r).toList) n with
    | true =>
      by_cases h1 : k ≤ 1
      · refine ⟨[r], (List.nil_sublist rs).cons₂ r, ?_⟩
        rw [collectMatching_cons_pos u n k r rs hm, if_pos h1]
        rfl
      · obtain ⟨chosen, hsub, heq⟩ := ih (k - 1)
        refine ⟨r :: chosen, hsub.cons₂ r, ?_⟩
        rw [collectMatching_cons_pos u n k r rs hm, if_neg h1, heq]
        rfl
    | false =>
      obtain ⟨chosen, hsub, heq⟩ := ih k
      exact ⟨chosen, hsub.cons r, by rw [collectMatching_cons_neg u n k r rs hm, heq]⟩

/-- C6: a successful `fetch_user_posts_by_hashtag` returns at most `limit`
posts, every returned caption contains `#hashtag` case-insensitively, and the
returned posts are the normalization of a sublist of the scanned upstream
posts, in upstream order. -/
theorem c6_hashtag_filter (api_key username hashtag : String) (limit : Nat)
    (data : List RawApiPost) (posts : List InstagramPost)
    (h : fetch_user_posts_by_hashtag api_key (.ok (200, data)) username hashtag limit = .ok posts) :
    posts.length ≤ limit ∧
    (∀ p ∈ posts,
      hasSubstrChars (lowerChars p.caption.toList) ('#' :: lowerChars hashtag.toList) = true) ∧
    ∃ chosen : List RawApiPost, chosen.Sublist (data.take (limit * 2)) ∧
      posts = chosen.map (mkInstagramPost username) := by
  by_cases hk : api_key = ""
  · simp [fetch_user_posts_by_hashtag, hk] at h
  · simp only [fetch_user_posts_by_hashtag, if_neg hk] at h
    norm_num at h
    subst h
    refine ⟨?_, ?_, ?_⟩
    · rcases Nat.eq_zero_or_pos limit with h0 | h1
      · subst h0
        simp [collectMatching]
      · exact collectMatching_length username _ limit _ h1
    · intro p hp
      exact collectMatching_caption username _ limit _ p hp
    · exact collectMatching_sublist username _ limit _

/-- C6 witness: a caption containing `#PopMap` matches a search for hashtag
`popmap`; the concrete fetch returns that single post, within the limit and in
upstream order. -/
theorem c6_hashtag_filter_witness :
    [mkInstagramPost "user" rawMixedCase].length ≤ 5 ∧
    (∀ p ∈ [mkInstagramPost "user" rawMixedCase],
      hasSubstrChars (lowerChars p.caption.toList) ('#' :: lowerChars "popmap".toList) = true) ∧
    ∃ chosen : List RawApiPost, chosen.Sublist ([rawNoTag, rawMixedCase].take (5 * 2)) ∧
      [mkInstagramPost "user" rawMixedCase] = chosen.map (mkInstagramPost "user") :=
  c6_hashtag_filter "k" "user" "popmap" 5 [rawNoTag, rawMixedCase]
    [mkInstagramPost "user" rawMixedCase] (by decide)

theorem dictGet_dictSet_same (k : String) (d : PyVal) :
    ∀ f, dictGet k d (dictSet k d f) = d := by
  intro f
  induction f with
  | nil => rfl
  | cons kv rest ih =>
    obtain ⟨k', v⟩ := kv
    by_cases h : k' = k
    · simp [dictSet, dictGet, h, ih]
    · simp [dictSet, dictGet, h, ih]

theorem dictGet_dictSet_ne_aux (k q : String) (v : PyVal) (h : q ≠ k) :
    ∀ (f : List (String × PyVal)) (d : PyVal),
      dictGet q d (dictSet k v f) = dictGet q d f := by
  intro f
  induction f with
  | nil => intro d; rfl
  | cons kv rest ih =>
    intro d
    obtain ⟨k', w⟩ := kv
    by_cases h' : k' = q
    · have hk : ¬k' = k := by
        rw [h']
        exact h
      simp [dictSet, dictGet, h', hk, h, ih]
    · by_cases hk : k' = k
      · simp [dictSet, dictGet, h', hk, Ne.symm h, ih]
      · simp [dictSet, dictGet, h', hk, ih]

theorem dictGet_dictSet_ne (k q : String) (v d : PyVal) (h : q ≠ k) :
    ∀ f, dictGet q d (dictSet k v f) = dictGet q d f :=
  fun f => dictGet_dictSet_ne_aux k q v h f d

theorem parseDateField_str_none (bad : String) (hbad : isoDateParse bad = none) :
    parseDateField (.str bad) = .ok none := by
  by_cases hb : bad = ""
  · subst hb
    rfl
  · simp [parseDateField, pyTruthy, hb, hbad]

theorem parseTimeField_str_none (bad : String) (hbad : isoTimeParse bad = none) :
    parseTimeField (.str bad) = .ok none := by
  by_cases hb : bad = ""
  · subst hb
    rfl
  · simp [parseTimeField, pyTruthy, hb, hbad]

theorem except_bind_ok_iff {ε α β : Type} (x : Except ε α) (f : α → Except ε β) (b : β) :
    x >>= f = .ok b ↔ ∃ a, x = .ok a ∧ f a = .ok b := by
  cases x with
  | error e =>
    show Except.error e = Except.ok b ↔ _
    simp
  | ok a =>
    show f a = Except.ok b ↔ _
    simp

theorem parseResponseRaw_of_fields (s : String) (fields : List (String × PyVal))
    (hr : responseFields s = .ok fields) :
    parseResponseRaw s = buildExtracted fields := by
  unfold parseResponseRaw
  rw [hr]
  rfl

/-- A date-string field that fails `YYYY-MM-DD` parsing behaves exactly as a
null field: the rest of the extraction is unaffected, and on success the
field itself comes out as `none`. -/
theorem buildExtracted_start_date_isolated (fields : List (String × PyVal)) (bad : String)
    (hf : dictGet "start_date" .null fields = .str bad)
    (hbad : isoDateParse bad = none) :
    buildExtracted fields = buildExtracted (dictSet "start_date" .null fields) ∧
    ∀ e, buildExtracted fields = .ok e → e.start_date = none := by
  have hps : parseDateField (.str bad) = .ok none := parseDateField_str_none bad hbad
  have hn : parseDateField PyVal.null = Except.ok none := rfl
  constructor
  · simp only [buildExtracted, hf, hps,
      dictGet_dictSet_same "start_date" PyVal.null fields, hn,
      dictGet_dictSet_ne "start_date" "confidence" PyVal.null (PyVal.num 0) (by decide) fields,
      dictGet_dictSet_ne "start_date" "start_time" PyVal.null PyVal.null (by decide) fields,
      dictGet_dictSet_ne "start_date" "end_date" PyVal.null PyVal.null (by decide) fields,
      dictGet_dictSet_ne "start_date" "end_time" PyVal.null PyVal.null (by decide) fields,
      dictGet_dictSet_ne "start_date" "is_event" PyVal.null (PyVal.bool false) (by decide) fields,
      dictGet_dictSet_ne "start_date" "title" PyVal.null PyVal.null (by decide) fields,
      dictGet_dictSet_ne "start_date" "description" PyVal.null PyVal.null (by decide) fields,
      dictGet_dictSet_ne "start_date" "location" PyVal.null PyVal.null (by decide) fields,
      dictGet_dictSet_ne "start_date" "suggested_category" PyVal.null PyVal.null (by decide) fields]
  · intro e he
    simp only [buildExtracted, hf, hps] at he
    rw [except_bind_ok_iff] at he
    obtain ⟨conf, hconf, he⟩ := he
    rw [except_bind_ok_iff] at he
    obtain ⟨sd, hsd, he⟩ := he
    rw [except_bind_ok_iff] at he
    obtain ⟨st, hst, he⟩ := he
    rw [except_bind_ok_iff] at he
    obtain ⟨ed, hed, he⟩ := he
    rw [except_bind_ok_iff] at he
    obtain ⟨et, het, he⟩ := he
    have hsd' : sd = none := by
      cases hsd
      rfl
    cases he
    cases hsd'
    rfl

/-- A time-string field that fails `HH:MM` parsing behaves exactly as a null
field. -/
theorem buildExtracted_start_time_isolated (fields : List (String × PyVal)) (bad : String)
    (hf : dictGet "start_time" .null fields = .str bad)
    (hbad : isoTimeParse bad = none) :
    buildExtracted fields = buildExtracted (dictSet "start_time" .null fields) ∧
    ∀ e, buildExtracted fields = .ok e → e.start_time = none := by
  have hps : parseTimeField (.str bad) = .ok none := parseTimeField_str_none bad hbad
  have hn : parseTimeField PyVal.null = Except.ok none := rfl
  constructor
  · simp only [buildExtracted, hf, hps,
      dictGet_dictSet_same "start_time" PyVal.null fields, hn,
      dictGet_dictSet_ne "start_time" "confidence" PyVal.null (PyVal.num 0) (by decide) fields,
      dictGet_dictSet_ne "start_time" "start_date" PyVal.null PyVal.null (by decide) fields,
      dictGet_dictSet_ne "start_time" "end_date" PyVal.null PyVal.null (by decide) fields,
      dictGet_dictSet_ne "start_time" "end_time" PyVal.null PyVal.null (by decide) fields,
      dictGet_dictSet_ne "start_time" "is_event" PyVal.null (PyVal.bool false) (by decide) fields,
      dictGet_dictSet_ne "start_time" "title" PyVal.null PyVal.null (by decide) fields,
      dictGet_dictSet_ne "start_time" "description" PyVal.null PyVal.null (by decide) fields,
      dictGet_dictSet_ne "start_time" "location" PyVal.null PyVal.null (by decide) fields,
      dictGet_dictSet_ne "start_time" "suggested_category" PyVal.null PyVal.null (by decide) fields]
  · intro e he
    simp only [buildExtracted, hf, hps] at he
    rw [except_bind_ok_iff] at he
    obtain ⟨conf, hconf, he⟩ := he
    rw [except_bind_ok_iff] at he
    obtain ⟨sd, hsd, he⟩ := he
    rw [except_bind_ok_iff] at he
    obtain ⟨st, hst, he⟩ := he
    rw [except_bind_ok_iff] at he
    obtain ⟨ed, hed, he⟩ := he
    rw [except_bind_ok_iff] at he
    obtain ⟨et, het, he⟩ := he
    have hst' : st = none := by
      cases hst
      rfl
    cases he
    cases hst'
    rfl

/-- An end-date string field that fails `YYYY-MM-DD` parsing behaves exactly
as a null field. -/
theorem buildExtracted_end_date_isolated (fields : List (String × PyVal)) (bad : String)
    (hf : dictGet "end_date" .null fields = .str bad)
    (hbad : isoDateParse bad = none) :
    buildExtracted fields = buildExtracted (dictSet "end_date" .null fields) ∧
    ∀ e, buildExtracted fields = .ok e → e.end_date = none := by
  have hps : parseDateField (.str bad) = .ok none := parseDateField_str_none bad hbad
  have hn : parseDateField PyVal.null = Except.ok none := rfl
  constructor
  · simp only [buildExtracted, hf, hps,
      dictGet_dictSet_same "end_date" PyVal.null fields, hn,
      dictGet_dictSet_ne "end_date" "confidence" PyVal.null (PyVal.num 0) (by decide) fields,
      dictGet_dictSet_ne "end_date" "start_date" PyVal.null PyVal.null (by decide) fields,
      dictGet_dictSet_ne "end_date" "start_time" PyVal.null PyVal.null (by decide) fields,
      dictGet_dictSet_ne "end_date" "end_time" PyVal.null PyVal.null (by decide) fields,
      dictGet_dictSet_ne "end_date" "is_event" PyVal.null (PyVal.bool false) (by decide) fields,
      dictGet_dictSet_ne "end_date" "title" PyVal.null PyVal.null (by decide) fields,
      dictGet_dictSet_ne "end_date" "description" PyVal.null PyVal.null (by decide) fields,
      dictGet_dictSet_ne "end_date" "location" PyVal.null PyVal.null (by decide) fields,
      dictGet_dictSet_ne "end_date" "suggested_category" PyVal.null PyVal.null (by decide) fields]
  · intro e he
    simp only [buildExtracted, hf, hps] at he
    rw [except_bind_ok_iff] at he
    obtain ⟨conf, hconf, he⟩ := he
    rw [except_bind_ok_iff] at he
    obtain ⟨sd, hsd, he⟩ := he
    rw [except_bind_ok_iff] at he
    obtain ⟨st, hst, he⟩ := he
    rw [except_bind_ok_iff] at he
    obtain ⟨ed, hed, he⟩ := he
    rw [except_bind_ok_iff] at he
    obtain ⟨et, het, he⟩ := he
    have hed' : ed = none := by
      cases hed
      rfl
    cases he
    cases hed'
    rfl

/-- An end-time string field that fails `HH:MM` parsing behaves exactly as a
null field. -/
theorem buildExtracted_end_time_isolated (fields : List (String × PyVal)) (bad : String)
    (hf : dictGet "end_time" .null fields = .str bad)
    (hbad : isoTimeParse bad = none) :
    buildExtracted fields = buildExtracted (dictSet "end_time" .null fields) ∧
    ∀ e, buildExtracted fields = .ok e → e.end_time = none := by
  have hps : parseTimeField (.str bad) = .ok none := parseTimeField_str_none bad hbad
  have hn : parseTimeField PyVal.null = Except.ok none := rfl
  constructor
  · simp only [buildExtracted, hf, hps,
      dictGet_dictSet_same "end_time" PyVal.null fields, hn,
      dictGet_dictSet_ne "end_time" "confidence" PyVal.null (PyVal.num 0) (by decide) fields,
      dictGet_dictSet_ne "end_time" "start_date" PyVal.null PyVal.null (by decide) fields,
      dictGet_dictSet_ne "end_time" "start_time" PyVal.null PyVal.null (by decide) fields,
      dictGet_dictSet_ne "end_time" "end_date" PyVal.null PyVal.null (by decide) fields,
      dictGet_dictSet_ne "end_time" "is_event" PyVal.null (PyVal.bool false) (by decide) fields,
      dictGet_dictSet_ne "end_time" "title" PyVal.null PyVal.null (by decide) fields,
      dictGet_dictSet_ne "end_time" "description" PyVal.null PyVal.null (by decide) fields,
      dictGet_dictSet_ne "end_time" "location" PyVal.null PyVal.null (by decide) fields,
      dictGet_dictSet_ne "end_time" "suggested_category" PyVal.null PyVal.null (by decide) fields]
  · intro e he
    simp only [buildExtracted, hf, hps] at he
    rw [except_bind_ok_iff] at he
    obtain ⟨conf, hconf, he⟩ := he
    rw [except_bind_ok_iff] at he
    obtain ⟨sd, hsd, he⟩ := he
    rw [except_bind_ok_iff] at he
    obtain ⟨st, hst, he⟩ := he
    rw [except_bind_ok_iff] at he
    obtain ⟨ed, hed, he⟩ := he
    rw [except_bind_ok_iff] at he
    obtain ⟨et, het, he⟩ := he
    have het' : et = none := by
      cases het
      rfl
    cases he
    cases het'
    rfl

/-- C7: for every model response whose JSON decodes to an object in which an
individual date or time field is a string that fails its expected format
(`YYYY-MM-DD` for dates, `HH:MM` for times), `_parse_response` treats the
response exactly as if that one field were null — only that field is
discarded, the rest of the extraction is untouched (in particular `is_event`
is not forced to false), and on success the discarded field is `none`. -/
theorem c7_bad_field_discarded :
    (∀ (s : String) (fields : List (String × PyVal)) (bad : String),
      responseFields s = .ok fields →
      dictGet "start_date" .null fields = .str bad → isoDateParse bad = none →
      parseResponseRaw s = buildExtracted (dictSet "start_date" .null fields) ∧
      ∀ e, parseResponseRaw s = .ok e → e.start_date = none) ∧
    (∀ (s : String) (fields : List (String × PyVal)) (bad : String),
      responseFields s = .ok fields →
      dictGet "start_time" .null fields = .str bad → isoTimeParse bad = none →
      parseResponseRaw s = buildExtracted (dictSet "start_time" .null fields) ∧
      ∀ e, parseResponseRaw s = .ok e → e.start_time = none) ∧
    (∀ (s : String) (fields : List (String × PyVal)) (bad : String),
      responseFields s = .ok fields →
      dictGet "end_date" .null fields = .str bad → isoDateParse bad = none →
      parseResponseRaw s = buildExtracted (dictSet "end_date" .null fields) ∧
      ∀ e, parseResponseRaw s = .ok e → e.end_date = none) ∧
    (∀ (s : String) (fields : List (String × PyVal)) (bad : String),
      responseFields s = .ok fields →
      dictGet "end_time" .null fields = .str bad → isoTimeParse bad = none →
      parseResponseRaw s = buildExtracted (dictSet "end_time" .null fields) ∧
      ∀ e, parseResponseRaw s = .ok e → e.end_time = none) := by
  refine ⟨?_, ?_, ?_, ?_⟩ <;>
    · intro s fields bad hr hf hbad
      first
      | exact ⟨(parseResponseRaw_of_fields s fields hr).trans
            (buildExtracted_start_date_isolated fields bad hf hbad).1,
          fun e he => (buildExtracted_start_date_isolated fields bad hf hbad).2 e
            ((parseResponseRaw_of_fields s fields hr).symm.trans he)⟩
      | exact ⟨(parseResponseRaw_of_fields s fields hr).trans
            (buildExtracted_start_time_isolated fields bad hf hbad).1,
          fun e he => (buildExtracted_start_time_isolated fields bad hf hbad).2 e
            ((parseResponseRaw_of_fields s fields hr).symm.trans he)⟩
      | exact ⟨(parseResponseRaw_of_fields s fields hr).trans
            (buildExtracted_end_date_isolated fields bad hf hbad).1,
          fun e he => (buildExtracted_end_date_isolated fields bad hf hbad).2 e
            ((parseResponseRaw_of_fields s fields hr).symm.trans he)⟩
      | exact ⟨(parseResponseRaw_of_fields s fields hr).trans
            (buildExtracted_end_time_isolated fields bad hf hbad).1,
          fun e he => (buildExtracted_end_time_isolated fields bad hf hbad).2 e
            ((parseResponseRaw_of_fields s fields hr).symm.trans he)⟩

/-- C7 witness: a concrete response whose `start_date` is the unparseable
string `"soon"`, and one whose `end_time` is the unparseable string `"7pm"`
(which no Python version's `time.fromisoformat` accepts); each extraction
succeeds with just that field `none` and equals the extraction of the same
object with that field null. -/
theorem c7_bad_field_discarded_witness :
    (parseResponseRaw "\x7b\"is_event\": true, \"confidence\": 1, \"start_date\": \"soon\"\x7d" =
      buildExtracted (dictSet "start_date" .null
        [("is_event", PyVal.bool true), ("confidence", PyVal.num 1),
         ("start_date", PyVal.str "soon")]) ∧
    ∀ e, parseResponseRaw "\x7b\"is_event\": true, \"confidence\": 1, \"start_date\": \"soon\"\x7d" =
        .ok e → e.start_date = none) ∧
    (parseResponseRaw "\x7b\"is_event\": true, \"confidence\": 1, \"end_time\": \"7pm\"\x7d" =
      buildExtracted (dictSet "end_time" .null
        [("is_event", PyVal.bool true), ("confidence", PyVal.num 1),
         ("end_time", PyVal.str "7pm")]) ∧
    ∀ e, parseResponseRaw "\x7b\"is_event\": true, \"confidence\": 1, \"end_time\": \"7pm\"\x7d" =
        .ok e → e.end_time = none) :=
  ⟨c7_bad_field_discarded.1 "\x7b\"is_event\": true, \"confidence\": 1, \"start_date\": \"soon\"\x7d"
    [("is_event", PyVal.bool true), ("confidence", PyVal.num 1), ("start_date", PyVal.str "soon")]
    "soon" (by rfl) (by rfl) (by rfl),
   c7_bad_field_discarded.2.2.2 "\x7b\"is_event\": true, \"confidence\": 1, \"end_time\": \"7pm\"\x7d"
    [("is_event", PyVal.bool true), ("confidence", PyVal.num 1), ("end_time", PyVal.str "7pm")]
    "7pm" (by rfl) (by rfl) (by rfl)⟩

theorem pairInL_append (l₁ l₂ : List LedgerEntry) (bid : Nat) (pid : String) :
    pairInL (l₁ ++ l₂) bid pid = (pairInL l₁ bid pid || pairInL l₂ bid pid) := by
  simp [pairInL, List.any_append]

theorem ledgerIdsL_append (l₁ l₂ : List LedgerEntry) (bid : Nat) :
    ledgerIdsL (l₁ ++ l₂) bid = ledgerIdsL l₁ bid ++ ledgerIdsL l₂ bid := by
  simp [ledgerIdsL, List.filter_append]

theorem ledgerIdsL_entry (business : Business) (post : InstagramPost) (eid : Option Nat) :
    ledgerIdsL [mkLedgerEntry business post eid] business.id = [post.post_id] := by
  simp [ledgerIdsL, mkLedgerEntry]

theorem pairInL_entry (business : Business) (post : InstagramPost) (eid : Option Nat)
    (pid : String) :
    pairInL [mkLedgerEntry business post eid] business.id pid = decide (post.post_id = pid) := by
  simp [pairInL, mkLedgerEntry]

theorem pairInL_iff_mem (l : List LedgerEntry) (bid : Nat) (pid : String) :
    pairInL l bid pid = true ↔ pid ∈ ledgerIdsL l bid := by
  simp only [pairInL, List.any_eq_true, Bool.and_eq_true, decide_eq_true_eq, ledgerIdsL,
    List.mem_map, List.mem_filter]
  constructor
  · rintro ⟨e, he, h1, h2⟩
    exact ⟨e, ⟨he, by simp [h1]⟩, h2⟩
  · rintro ⟨e, ⟨he, h1⟩, h2⟩
    refine ⟨e, he, ?_, h2⟩
    simpa using h1

theorem acceptsB_gate_false (x : EventExtractor) (caption : String)
    (h : acceptsB x caption = true) :
    ¬((x.extractFn caption).is_event = false ∨
      (x.extractFn caption).confidence < x.confidence_threshold) := by
  simp only [acceptsB, Bool.and_eq_true, Bool.not_eq_true', decide_eq_false_iff_not] at h
  rintro (hb | hc)
  · rw [h.1] at hb
    cases hb
  · exact h.2 hc

theorem acceptsB_gate_true (x : EventExtractor) (caption : String)
    (h : acceptsB x caption = false) :
    (x.extractFn caption).is_event = false ∨
      (x.extractFn caption).confidence < x.confidence_threshold := by
  rcases Bool.eq_false_or_eq_true (x.extractFn caption).is_event with hb | hb
  · right
    simp only [acceptsB, hb, Bool.true_and, Bool.not_eq_false', decide_eq_true_eq] at h
    exact h
  · exact Or.inl hb

theorem create_draft_event_snd (business : Business) (post : InstagramPost)
    (extracted : ExtractedEvent) (today : PyDate) (db : DbState) :
    (create_draft_event business post extracted today db).2 =
      { db with
          events := db.events ++ [(create_draft_event business post extracted today db).1],
          nextEventId := db.nextEventId + 1 } := rfl

theorem create_draft_event_id (business : Business) (post : InstagramPost)
    (extracted : ExtractedEvent) (today : PyDate) (db : DbState) :
    (create_draft_event business post extracted today db).1.id = db.nextEventId := rfl

theorem processPost_dup (business : Business) (x : EventExtractor) (today : PyDate)
    (snap : List String) (fault : PostFault) (post : InstagramPost) (st : RunState)
    (h : post.post_id ∈ snap) :
    processPost business x today snap fault post st =
      { st with result :=
          { st.result with skipped_duplicate := st.result.skipped_duplicate + 1 } } := by
  simp [processPost, h]

theorem processPost_not_event (business : Business) (x : EventExtractor) (today : PyDate)
    (snap : List String) (fault : PostFault) (post : InstagramPost) (st : RunState)
    (h1 : post.post_id ∉ snap) (h2 : acceptsB x post.caption = false) :
    processPost business x today snap fault post st =
      { st with result :=
          { st.result with skipped_not_event := st.result.skipped_not_event + 1 } } := by
  simp [processPost, h1, acceptsB_gate_true x post.caption h2]

theorem processPost_accept_clean (business : Business) (x : EventExtractor) (today : PyDate)
    (snap : List String) (fault : PostFault) (post : InstagramPost) (st : RunState)
    (h1 : post.post_id ∉ snap) (h2 : acceptsB x post.caption = true)
    (hci : fault.concurrentInsert = false) (hdr : fault.draftRaises = false)
    (hpl : pairInL st.db.ledger business.id post.post_id = false) :
    processPost business x today snap fault post st =
      { result := { st.result with
            imported := st.result.imported + 1,
            draft_ids := st.result.draft_ids ++ [st.db.nextEventId] },
        db := { events := st.db.events ++
                  [(create_draft_event business post (x.extractFn post.caption) today st.db).1],
                ledger := st.db.ledger ++ [mkLedgerEntry business post (some st.db.nextEventId)],
                nextEventId := st.db.nextEventId + 1 } } := by
  simp only [processPost, if_neg h1, if_neg (acceptsB_gate_false x post.caption h2), hci,
    Bool.false_eq_true, if_false, hdr, create_draft_event_snd, create_draft_event_id, hpl]

theorem processPost_accept_draftfail (business : Business) (x : EventExtractor) (today : PyDate)
    (snap : List String) (fault : PostFault) (post : InstagramPost) (st : RunState)
    (h1 : post.post_id ∉ snap) (h2 : acceptsB x post.caption = true)
    (hci : fault.concurrentInsert = false) (hdr : fault.draftRaises = true) :
    processPost business x today snap fault post st =
      { result := { st.result with skipped_error := st.result.skipped_error + 1 },
        db := st.db } := by
  simp only [processPost, if_neg h1, if_neg (acceptsB_gate_false x post.caption h2), hci,
    Bool.false_eq_true, if_false, hdr, if_true]

theorem processPost_accept_race (business : Business) (x : EventExtractor) (today : PyDate)
    (snap : List String) (fault : PostFault) (post : InstagramPost) (st : RunState)
    (h1 : post.post_id ∉ snap) (h2 : acceptsB x post.caption = true)
    (hf : fault = ⟨false, true⟩) :
    processPost business x today snap fault post st =
      { result := { st.result with
            imported := st.result.imported + 1,
            draft_ids := st.result.draft_ids ++ [st.db.nextEventId],
            skipped_error := st.result.skipped_error + 1 },
        db := { events := st.db.events ++
                  [(create_draft_event business post (x.extractFn post.caption) today
                      { st.db with
                          ledger := st.db.ledger ++ [mkLedgerEntry business post none] }).1],
                ledger := st.db.ledger ++ [mkLedgerEntry business post none],
                nextEventId := st.db.nextEventId + 1 } } := by
  subst hf
  have hrec : pairInL (st.db.ledger ++ [mkLedgerEntry business post none]) business.id
      post.post_id = true := by
    rw [pairInL_append, pairInL_entry]
    simp
  simp only [processPost, if_neg h1, if_neg (acceptsB_gate_false x post.caption h2), if_true,
    Bool.false_eq_true, if_false, create_draft_event_snd, create_draft_event_id, hrec]

/-- When every post of the batch is either a snapshot duplicate or rejected by
the confidence gate, the loop only counts: the database is untouched. -/
theorem processLoop_all_skipped (business : Business) (x : EventExtractor) (today : PyDate)
    (snap : List String) (faults : Nat → PostFault) :
    ∀ (posts : List InstagramPost) (idx : Nat) (st : RunState),
      (∀ p ∈ posts, dupB snap p = true ∨ acceptsB x p.caption = false) →
      processLoop business x today snap faults idx posts st =
        { st with result := { st.result with
            skipped_duplicate := st.result.skipped_duplicate + posts.countP (dupB snap),
            skipped_not_event := st.result.skipped_not_event +
              posts.countP (fun p => !dupB snap p) } } := by
  intro posts
  induction posts with
  | nil =>
    intro idx st _
    simp [processLoop, List.countP_nil]
  | cons p rest ih =>
    intro idx st hall
    have hrest : ∀ q ∈ rest, dupB snap q = true ∨ acceptsB x q.caption = false :=
      fun q hq => hall q (List.mem_cons_of_mem p hq)
    rcases hall p (List.mem_cons_self p rest) with hp | hp
    · have hmem : p.post_id ∈ snap := by
        simpa [dupB] using hp
      rw [processLoop, processPost_dup business x today snap (faults idx) p st hmem,
        ih (idx + 1) _ hrest]
      simp only [List.countP_cons, hp, if_true, Bool.not_true, Bool.false_eq_true, if_false,
        Nat.add_zero]
      simp [Nat.add_assoc, Nat.add_comm, Nat.add_left_comm]
    · have hdupc : dupB snap p = true ∨ dupB snap p = false := Bool.eq_false_or_eq_true _
      rcases hdupc with hd | hd
      · have hmem : p.post_id ∈ snap := by
          simpa [dupB] using hd
        rw [processLoop, processPost_dup business x today snap (faults idx) p st hmem,
          ih (idx + 1) _ hrest]
        simp only [List.countP_cons, hd, if_true, Bool.not_true, Bool.false_eq_true, if_false,
          Nat.add_zero]
        simp [Nat.add_assoc, Nat.add_comm, Nat.add_left_comm]
      · have hmem : p.post_id ∉ snap := by
          simpa [dupB] using hd
        rw [processLoop, processPost_not_event business x today snap (faults idx) p st hmem hp,
          ih (idx + 1) _ hrest]
        simp only [List.countP_cons, hd, Bool.false_eq_true, if_false, Bool.not_false, if_true,
          Nat.add_zero]
        simp [Nat.add_assoc, Nat.add_comm, Nat.add_left_comm]

/-- Characterization of one clean (fault-free) run of the loop over posts with
pairwise-distinct external ids, starting from a ledger whose rows for this
business are all in the snapshot: counters count the three classes, no error
occurs, and the ledger gains exactly the accepted ids, in order. -/
theorem processLoop_clean (business : Business) (x : EventExtractor) (today : PyDate)
    (snap : List String) (faults : Nat → PostFault) (hcf : ∀ i, faults i = noFault) :
    ∀ (posts : List InstagramPost) (idx : Nat) (st : RunState),
      (posts.map (fun p => p.post_id)).Nodup →
      (∀ p ∈ posts, pairInL st.db.ledger business.id p.post_id = true → p.post_id ∈ snap) →
      (processLoop business x today snap faults idx posts st).result.imported
          = st.result.imported + posts.countP (importedP x snap) ∧
      (processLoop business x today snap faults idx posts st).result.skipped_duplicate
          = st.result.skipped_duplicate + posts.countP (dupB snap) ∧
      (processLoop business x today snap faults idx posts st).result.skipped_not_event
          = st.result.skipped_not_event +
            posts.countP (fun p => !dupB snap p && !acceptsB x p.caption) ∧
      (processLoop business x today snap faults idx posts st).result.skipped_error
          = st.result.skipped_error ∧
      ledgerIdsL (processLoop business x today snap faults idx posts st).db.ledger business.id
          = ledgerIdsL st.db.ledger business.id ++
            (posts.filter (importedP x snap)).map (fun p => p.post_id) := by
  intro posts
  induction posts with
  | nil =>
    intro idx st _ _
    simp [processLoop]
  | cons p rest ih =>
    intro idx st hnodup hinv
    have hnodup' : (rest.map (fun p => p.post_id)).Nodup := (List.nodup_cons.mp hnodup).2
    have hnotin : p.post_id ∉ rest.map (fun p => p.post_id) := (List.nodup_cons.mp hnodup).1
    rcases Bool.eq_false_or_eq_true (dupB snap p) with hd | hd
    · have hmem : p.post_id ∈ snap := by simpa [dupB] using hd
      rw [processLoop, processPost_dup business x today snap (faults idx) p st hmem]
      have hinv' : ∀ q ∈ rest,
          pairInL ({ st with result := { st.result with
            skipped_duplicate := st.result.skipped_duplicate + 1 } }).db.ledger business.id
            q.post_id = true → q.post_id ∈ snap :=
        fun q hq => hinv q (List.mem_cons_of_mem p hq)
      obtain ⟨i1, i2, i3, i4, i5⟩ := ih (idx + 1)
        { st with result := { st.result with
            skipped_duplicate := st.result.skipped_duplicate + 1 } } hnodup' hinv'
      refine ⟨?_, ?_, ?_, ?_, ?_⟩
      · rw [i1]
        simp [List.countP_cons, importedP, hd]
      · rw [i2]
        simp only [List.countP_cons, hd, if_true]
        omega
      · rw [i3]
        simp [List.countP_cons, hd]
      · rw [i4]
      · rw [i5]
        simp [List.filter_cons, importedP, hd]
    · have hmem : p.post_id ∉ snap := by simpa [dupB] using hd
      rcases Bool.eq_false_or_eq_true (acceptsB x p.caption) with ha | ha
      · -- accepted: clean create and record
        have hpl : pairInL st.db.ledger business.id p.post_id = false := by
          rcases Bool.eq_false_or_eq_true (pairInL st.db.ledger business.id p.post_id) with
            hb | hb
          · exact absurd (hinv p (List.mem_cons_self p rest) hb) hmem
          · exact hb
        have hci : (faults idx).concurrentInsert = false := by rw [hcf idx]; rfl
        have hdr : (faults idx).draftRaises = false := by rw [hcf idx]; rfl
        rw [processLoop, processPost_accept_clean business x today snap (faults idx) p st
          hmem ha hci hdr hpl]
        set st' : RunState :=
          { result := { st.result with
                imported := st.result.imported + 1,
                draft_ids := st.result.draft_ids ++ [st.db.nextEventId] },
            db := { events := st.db.events ++
                      [(create_draft_event business p (x.extractFn p.caption) today st.db).1],
                    ledger := st.db.ledger ++ [mkLedgerEntry business p (some st.db.nextEventId)],
                    nextEventId := st.db.nextEventId + 1 } } with hst'
        have hinv' : ∀ q ∈ rest,
            pairInL st'.db.ledger business.id q.post_id = true → q.post_id ∈ snap := by
          intro q hq hpq
          rw [hst'] at hpq
          simp only [pairInL_append, pairInL_entry, Bool.or_eq_true, decide_eq_true_eq] at hpq
          rcases hpq with hpq | hpq
          · exact hinv q (List.mem_cons_of_mem p hq) hpq
          · exact absurd (hpq ▸ List.mem_map_of_mem (fun p => p.post_id) hq) hnotin
        obtain ⟨i1, i2, i3, i4, i5⟩ := ih (idx + 1) st' hnodup' hinv'
        have hip : importedP x snap p = true := by simp [importedP, hd, ha]
        refine ⟨?_, ?_, ?_, ?_, ?_⟩
        · rw [i1, hst']
          simp only [List.countP_cons, hip, if_true]
          omega
        · rw [i2, hst']
          simp [List.countP_cons, hd]
        · rw [i3, hst']
          simp [List.countP_cons, hd, ha]
        · rw [i4, hst']
        · rw [i5, hst']
          simp only [ledgerIdsL_append, ledgerIdsL_entry, List.filter_cons, hip, if_true,
            List.map_cons, List.append_assoc, List.singleton_append]
      · -- rejected by the gate
        rw [processLoop, processPost_not_event business x today snap (faults idx) p st hmem ha]
        have hinv' : ∀ q ∈ rest,
            pairInL ({ st with result := { st.result with
              skipped_not_event := st.result.skipped_not_event + 1 } }).db.ledger business.id
              q.post_id = true → q.post_id ∈ snap :=
          fun q hq => hinv q (List.mem_cons_of_mem p hq)
        obtain ⟨i1, i2, i3, i4, i5⟩ := ih (idx + 1)
          { st with result := { st.result with
              skipped_not_event := st.result.skipped_not_event + 1 } } hnodup' hinv'
        refine ⟨?_, ?_, ?_, ?_, ?_⟩
        · rw [i1]
          simp [List.countP_cons, importedP, ha]
        · rw [i2]
          simp [List.countP_cons, hd]
        · rw [i3]
          simp only [List.countP_cons, hd, Bool.not_false, ha, Bool.not_true, Bool.and_true,
            Bool.and_false, if_true, if_false]
          omega
        · rw [i4]
        · rw [i5]
          simp [List.filter_cons, importedP, ha]

/-- Counter bookkeeping of the loop in the absence of the concurrent-insert
race, over posts with pairwise-distinct external ids: every post lands in
exactly one counter (the four counters gain exactly the batch length) and
`draft_ids` grows in lockstep with `imported`. Draft-creation failures are
allowed. -/
theorem processLoop_sum (business : Business) (x : EventExtractor) (today : PyDate)
    (snap : List String) (faults : Nat → PostFault)
    (hcf : ∀ i, (faults i).concurrentInsert = false) :
    ∀ (posts : List InstagramPost) (idx : Nat) (st : RunState),
      (posts.map (fun p => p.post_id)).Nodup →
      (∀ p ∈ posts, pairInL st.db.ledger business.id p.post_id = true → p.post_id ∈ snap) →
      counterSum (processLoop business x today snap faults idx posts st).result
          = counterSum st.result + posts.length ∧
      (processLoop business x today snap faults idx posts st).result.draft_ids.length
          + st.result.imported
        = st.result.draft_ids.length
          + (processLoop business x today snap faults idx posts st).result.imported := by
  intro posts
  induction posts with
  | nil =>
    intro idx st _ _
    simp [processLoop]
  | cons p rest ih =>
    intro idx st hnodup hinv
    have hnodup' : (rest.map (fun p => p.post_id)).Nodup := (List.nodup_cons.mp hnodup).2
    have hnotin : p.post_id ∉ rest.map (fun p => p.post_id) := (List.nodup_cons.mp hnodup).1
    rcases Bool.eq_false_or_eq_true (dupB snap p) with hd | hd
    · have hmem : p.post_id ∈ snap := by simpa [dupB] using hd
      rw [processLoop, processPost_dup business x today snap (faults idx) p st hmem]
      obtain ⟨i1, i2⟩ := ih (idx + 1)
        { st with result := { st.result with
            skipped_duplicate := st.result.skipped_duplicate + 1 } } hnodup'
        (fun q hq => hinv q (List.mem_cons_of_mem p hq))
      constructor
      · rw [i1]
        simp [counterSum, List.length_cons]
        omega
      · exact i2
    · have hmem : p.post_id ∉ snap := by simpa [dupB] using hd
      rcases Bool.eq_false_or_eq_true (acceptsB x p.caption) with ha | ha
      · -- accepted
        have hci : (faults idx).concurrentInsert = false := hcf idx
        rcases Bool.eq_false_or_eq_true (faults idx).draftRaises with hdr | hdr
        · -- draft creation raises
          rw [processLoop, processPost_accept_draftfail business x today snap (faults idx) p st
            hmem ha hci hdr]
          obtain ⟨i1, i2⟩ := ih (idx + 1)
            { result := { st.result with skipped_error := st.result.skipped_error + 1 },
              db := st.db } hnodup'
            (fun q hq => hinv q (List.mem_cons_of_mem p hq))
          constructor
          · rw [i1]
            simp [counterSum, List.length_cons]
            omega
          · exact i2
        · -- clean create and record
          have hpl : pairInL st.db.ledger business.id p.post_id = false := by
            rcases Bool.eq_false_or_eq_true (pairInL st.db.ledger business.id p.post_id) with
              hb | hb
            · exact absurd (hinv p (List.mem_cons_self p rest) hb) hmem
            · exact hb
          rw [processLoop, processPost_accept_clean business x today snap (faults idx) p st
            hmem ha hci hdr hpl]
          set st' : RunState :=
            { result := { st.result with
                  imported := st.result.imported + 1,
                  draft_ids := st.result.draft_ids ++ [st.db.nextEventId] },
              db := { events := st.db.events ++
                        [(create_draft_event business p (x.extractFn p.caption) today st.db).1],
                      ledger := st.db.ledger ++
                        [mkLedgerEntry business p (some st.db.nextEventId)],
                      nextEventId := st.db.nextEventId + 1 } } with hst'
          have hinv' : ∀ q ∈ rest,
              pairInL st'.db.ledger business.id q.post_id = true → q.post_id ∈ snap := by
            intro q hq hpq
            rw [hst'] at hpq
            simp only [pairInL_append, pairInL_entry, Bool.or_eq_true, decide_eq_true_eq] at hpq
            rcases hpq with hpq | hpq
            · exact hinv q (List.mem_cons_of_mem p hq) hpq
            · exact absurd (hpq ▸ List.mem_map_of_mem (fun p => p.post_id) hq) hnotin
          obtain ⟨i1, i2⟩ := ih (idx + 1) st' hnodup' hinv'
          constructor
          · rw [i1, hst']
            simp [counterSum, List.length_cons]
            omega
          · have him : st'.result.imported = st.result.imported + 1 := by rw [hst']
            have hdl : st'.result.draft_ids.length = st.result.draft_ids.length + 1 := by
              rw [hst']
              simp
            omega
      · -- gate rejects
        rw [processLoop, processPost_not_event business x today snap (faults idx) p st hmem ha]
        obtain ⟨i1, i2⟩ := ih (idx + 1)
          { st with result := { st.result with
              skipped_not_event := st.result.skipped_not_event + 1 } } hnodup'
          (fun q hq => hinv q (List.mem_cons_of_mem p hq))
        constructor
        · rw [i1]
          simp [counterSum, List.length_cons]
          omega
        · exact i2

/-- countP of a pointwise disjunction of disjoint predicates adds up. -/
theorem countP_or_disjoint {α : Type} (l : List α) (f g h : α → Bool)
    (hpt : ∀ a ∈ l, f a = (g a || h a)) (hdis : ∀ a ∈ l, g a = true → h a = false) :
    l.countP f = l.countP g + l.countP h := by
  induction l with
  | nil => simp
  | cons a rest ih =>
    have hrest := ih (fun b hb => hpt b (List.mem_cons_of_mem a hb))
      (fun b hb => hdis b (List.mem_cons_of_mem a hb))
    have ha := hpt a (List.mem_cons_self a rest)
    simp only [List.countP_cons, hrest, ha]
    rcases Bool.eq_false_or_eq_true (g a) with hg | hg
    · have hh := hdis a (List.mem_cons_self a rest) hg
      simp [hg, hh]
      omega
    · rcases Bool.eq_false_or_eq_true (h a) with hh | hh
      · simp [hg, hh]
        omega
      · simp [hg, hh]

/-- For a batch with pairwise-distinct ids, a post's id occurs among the
accepted ids of the batch exactly when the post itself is accepted. -/
theorem mem_accepted_ids_iff (x : EventExtractor) (snap : List String)
    (posts : List InstagramPost) (hnodup : (posts.map (fun p => p.post_id)).Nodup)
    (p : InstagramPost) (hp : p ∈ posts) :
    p.post_id ∈ (posts.filter (importedP x snap)).map (fun p => p.post_id) ↔
      importedP x snap p = true := by
  constructor
  · intro hmem
    rcases List.mem_map.mp hmem with ⟨q, hq, hqid⟩
    rcases List.mem_filter.mp hq with ⟨hqposts, hqimp⟩
    have : q = p := List.inj_on_of_nodup_map hnodup hqposts hp hqid
    rw [← this]
    exact hqimp
  · intro himp
    exact List.mem_map_of_mem (fun p => p.post_id)
      (List.mem_filter.mpr ⟨hp, himp⟩)

/-- C10 counterexample: a run whose fetch returns one post, where the
ledger-record step hits the concurrent-duplicate race: the post is counted in
both `imported` and `skipped_error`, so the four counters sum to 2, not
to the batch size 1. -/
theorem c10_sum_counterexample :
    fetchA "testbakery" "popmap" 20 = .ok [samplePostA] ∧
    (import_posts sampleBusiness fetchA acceptAllExtractor raceOnFirst sampleToday emptyDb
        20).1.imported +
      (import_posts sampleBusiness fetchA acceptAllExtractor raceOnFirst sampleToday emptyDb
        20).1.skipped_duplicate +
      (import_posts sampleBusiness fetchA acceptAllExtractor raceOnFirst sampleToday emptyDb
        20).1.skipped_not_event +
      (import_posts sampleBusiness fetchA acceptAllExtractor raceOnFirst sampleToday emptyDb
        20).1.skipped_error = 2 := by
  refine ⟨rfl, ?_⟩
  decide

/-- C10 (amended): when the fetch succeeds with N posts of pairwise-distinct
external ids and no record-time concurrent-duplicate race occurs, the four
counters partition the batch (`imported + skipped_duplicate +
skipped_not_event + skipped_error = N`) and `draft_ids` has length `imported`;
a record-time race breaks the partition by counting the racy post twice (see
the counterexample), while `draft_ids.length = imported` holds regardless. -/
theorem c10_counters_partition (business : Business)
    (fetch : String → String → Nat → Except InstagramServiceFailure (List InstagramPost))
    (x : EventExtractor) (faults : Nat → PostFault) (today : PyDate) (db : DbState)
    (limit : Nat) (posts : List InstagramPost)
    (hprem : business.premium = true)
    (hhandle : business.instagram_handle ≠ "")
    (hfetch : fetch business.instagram_handle "popmap" limit = .ok posts)
    (hnodup : (posts.map (fun p => p.post_id)).Nodup)
    (hnocc : ∀ i, (faults i).concurrentInsert = false) :
    (import_posts business fetch x faults today db limit).1.imported +
      (import_posts business fetch x faults today db limit).1.skipped_duplicate +
      (import_posts business fetch x faults today db limit).1.skipped_not_event +
      (import_posts business fetch x faults today db limit).1.skipped_error = posts.length ∧
    (import_posts business fetch x faults today db limit).1.draft_ids.length =
      (import_posts business fetch x faults today db limit).1.imported := by
  have hip : (import_posts business fetch x faults today db limit).1 =
      (processLoop business x today (ledgerIdsL db.ledger business.id) faults 0 posts
        { result := {}, db := db }).result := by
    simp [import_posts, hprem, hhandle, hfetch]
  obtain ⟨s1, s2⟩ := processLoop_sum business x today (ledgerIdsL db.ledger business.id)
    faults hnocc posts 0 { result := {}, db := db } hnodup
    (fun p _ hb => (pairInL_iff_mem db.ledger business.id p.post_id).mp hb)
  rw [hip]
  simp only [counterSum] at s1
  simp only [List.length_nil] at s2
  constructor
  · omega
  · omega

/-- C10 witness: the partition at a concrete clean two-post run. -/
theorem c10_counters_partition_witness :
    (import_posts sampleBusiness fetchAB acceptAllExtractor cleanFaults sampleToday emptyDb
        20).1.imported +
      (import_posts sampleBusiness fetchAB acceptAllExtractor cleanFaults sampleToday emptyDb
        20).1.skipped_duplicate +
      (import_posts sampleBusiness fetchAB acceptAllExtractor cleanFaults sampleToday emptyDb
        20).1.skipped_not_event +
      (import_posts sampleBusiness fetchAB acceptAllExtractor cleanFaults sampleToday emptyDb
        20).1.skipped_error = [samplePostA, samplePostB].length ∧
    (import_posts sampleBusiness fetchAB acceptAllExtractor cleanFaults sampleToday emptyDb
        20).1.draft_ids.length =
      (import_posts sampleBusiness fetchAB acceptAllExtractor cleanFaults sampleToday emptyDb
        20).1.imported :=
  c10_counters_partition sampleBusiness fetchAB acceptAllExtractor cleanFaults sampleToday
    emptyDb 20 [samplePostA, samplePostB] rfl (by decide) rfl (by decide) (fun _ => rfl)

/-- C1 counterexample: a two-post run where the ledger-record step of the
first post fails with the concurrent-duplicate race: the orchestrator counts
that post as `skipped_error` (and it stays counted as `imported` with its
draft id kept), not as `skipped_duplicate`; the second post is still
processed. -/
theorem c1_race_counterexample :
    (import_posts sampleBusiness fetchAB acceptAllExtractor raceOnFirst sampleToday emptyDb
        20).1.skipped_duplicate = 0 ∧
    (import_posts sampleBusiness fetchAB acceptAllExtractor raceOnFirst sampleToday emptyDb
        20).1.skipped_error = 1 ∧
    (import_posts sampleBusiness fetchAB acceptAllExtractor raceOnFirst sampleToday emptyDb
        20).1.imported = 2 ∧
    (import_posts sampleBusiness fetchAB acceptAllExtractor raceOnFirst sampleToday emptyDb
        20).1.draft_ids = [0, 1] := by
  decide

/-- C1 (amended): when the ledger-record step of the first fetched post fails
with the concurrent-duplicate race, the orchestrator counts that post as
`skipped_error` — it had already been counted as `imported` with its draft id
appended, and it is not counted as `skipped_duplicate` — and continues the
loop on the remaining posts. -/
theorem c1_race_counted_as_error (business : Business)
    (fetch : String → String → Nat → Except InstagramServiceFailure (List InstagramPost))
    (x : EventExtractor) (faults : Nat → PostFault) (today : PyDate) (db : DbState)
    (limit : Nat) (p : InstagramPost) (rest : List InstagramPost)
    (hprem : business.premium = true)
    (hhandle : business.instagram_handle ≠ "")
    (hfetch : fetch business.instagram_handle "popmap" limit = .ok (p :: rest))
    (hnew : p.post_id ∉ ledgerIdsL db.ledger business.id)
    (hacc : acceptsB x p.caption = true)
    (hfault : faults 0 = ⟨false, true⟩) :
    (processPost business x today (ledgerIdsL db.ledger business.id) (faults 0) p
        { result := {}, db := db }).result =
      { imported := 1, skipped_duplicate := 0, skipped_not_event := 0, skipped_error := 1,
        draft_ids := [db.nextEventId], error := none } ∧
    import_posts business fetch x faults today db limit =
      ((processLoop business x today (ledgerIdsL db.ledger business.id) faults 1 rest
          (processPost business x today (ledgerIdsL db.ledger business.id) (faults 0) p
            { result := {}, db := db })).result,
       (processLoop business x today (ledgerIdsL db.ledger business.id) faults 1 rest
          (processPost business x today (ledgerIdsL db.ledger business.id) (faults 0) p
            { result := {}, db := db })).db) := by
  constructor
  · rw [processPost_accept_race business x today (ledgerIdsL db.ledger business.id) (faults 0)
      p { result := {}, db := db } hnew hacc hfault]
    simp
  · simp only [import_posts, hprem, Bool.true_eq_false, if_false, if_neg hhandle, hfetch,
      processLoop]

/-- C1 witness: the amended statement at the concrete two-post race run. -/
theorem c1_race_counted_as_error_witness :
    (processPost sampleBusiness acceptAllExtractor sampleToday
        (ledgerIdsL emptyDb.ledger sampleBusiness.id) (raceOnFirst 0) samplePostA
        { result := {}, db := emptyDb }).result =
      { imported := 1, skipped_duplicate := 0, skipped_not_event := 0, skipped_error := 1,
        draft_ids := [emptyDb.nextEventId], error := none } ∧
    import_posts sampleBusiness fetchAB acceptAllExtractor raceOnFirst sampleToday emptyDb 20 =
      ((processLoop sampleBusiness acceptAllExtractor sampleToday
          (ledgerIdsL emptyDb.ledger sampleBusiness.id) raceOnFirst 1 [samplePostB]
          (processPost sampleBusiness acceptAllExtractor sampleToday
            (ledgerIdsL emptyDb.ledger sampleBusiness.id) (raceOnFirst 0) samplePostA
            { result := {}, db := emptyDb })).result,
       (processLoop sampleBusiness acceptAllExtractor sampleToday
          (ledgerIdsL emptyDb.ledger sampleBusiness.id) raceOnFirst 1 [samplePostB]
          (processPost sampleBusiness acceptAllExtractor sampleToday
            (ledgerIdsL emptyDb.ledger sampleBusiness.id) (raceOnFirst 0) samplePostA
            { result := {}, db := emptyDb })).db) :=
  c1_race_counted_as_error sampleBusiness fetchAB acceptAllExtractor raceOnFirst sampleToday
    emptyDb 20 samplePostA [samplePostB] rfl (by decide) rfl (by decide) (by decide) rfl

/-- C2 counterexample: for a tenant whose ledger already holds one of the
upstream posts, the first run accepts N = 1 post, but the second run has
`skipped_duplicate = 2`, not N: the second-run duplicate count also includes
the posts that were already duplicates during the first run. -/
theorem c2_second_run_counterexample :
    (import_posts sampleBusiness fetchAB acceptAllExtractor cleanFaults sampleToday overlapDb
        20).1.imported = 1 ∧
    (import_posts sampleBusiness fetchAB acceptAllExtractor cleanFaults sampleToday overlapDb
        20).1.skipped_duplicate = 1 ∧
    (import_posts sampleBusiness fetchAB acceptAllExtractor cleanFaults sampleToday
        (import_posts sampleBusiness fetchAB acceptAllExtractor cleanFaults sampleToday
          overlapDb 20).2 20).1.skipped_duplicate = 2 := by
  decide

/-- C2 (amended): with a fixed upstream post set of pairwise-distinct ids, a
deterministic extractor and no injected failures, a second run imports
nothing, leaves the database untouched, and its `skipped_duplicate` equals the
first run's `imported` plus the first run's `skipped_duplicate` — every
previously imported post is skipped via the ledger; the count equals N exactly
when the first run itself saw no duplicates. -/
theorem c2_second_run_all_duplicates (business : Business)
    (fetch : String → String → Nat → Except InstagramServiceFailure (List InstagramPost))
    (x : EventExtractor) (faults : Nat → PostFault) (today : PyDate) (db : DbState)
    (limit : Nat) (posts : List InstagramPost)
    (hprem : business.premium = true)
    (hhandle : business.instagram_handle ≠ "")
    (hfetch : fetch business.instagram_handle "popmap" limit = .ok posts)
    (hnodup : (posts.map (fun p => p.post_id)).Nodup)
    (hclean : ∀ i, faults i = noFault) :
    (import_posts business fetch x faults today
        (import_posts business fetch x faults today db limit).2 limit).1.imported = 0 ∧
    (import_posts business fetch x faults today
        (import_posts business fetch x faults today db limit).2 limit).1.skipped_duplicate =
      (import_posts business fetch x faults today db limit).1.imported +
        (import_posts business fetch x faults today db limit).1.skipped_duplicate ∧
    (import_posts business fetch x faults today
        (import_posts business fetch x faults today db limit).2 limit).2 =
      (import_posts business fetch x faults today db limit).2 := by
  set snap1 := ledgerIdsL db.ledger business.id with hsnap1
  set L1 := processLoop business x today snap1 faults 0 posts { result := {}, db := db }
    with hL1
  obtain ⟨i1, i2, i3, i4, i5⟩ := processLoop_clean business x today snap1 faults hclean posts
    0 { result := {}, db := db } hnodup
    (fun p _ hb => (pairInL_iff_mem db.ledger business.id p.post_id).mp hb)
  rw [← hL1] at i1 i2 i5
  simp only [List.length_nil] at i1 i2 i5
  have hip1a : (import_posts business fetch x faults today db limit).1 = L1.result := by
    simp [import_posts, hprem, hhandle, hfetch, hL1, hsnap1]
  have hip1b : (import_posts business fetch x faults today db limit).2 = L1.db := by
    simp [import_posts, hprem, hhandle, hfetch, hL1, hsnap1]
  have hall : ∀ p ∈ posts, dupB (ledgerIdsL L1.db.ledger business.id) p = true ∨
      acceptsB x p.caption = false := by
    intro p hp
    rcases Bool.eq_false_or_eq_true (acceptsB x p.caption) with ha | ha
    · left
      rw [i5]
      rcases Bool.eq_false_or_eq_true (dupB snap1 p) with hd | hd
      · have hmem : p.post_id ∈ snap1 := by simpa [dupB] using hd
        simp [dupB, List.mem_append, hmem]
      · have himp : importedP x snap1 p = true := by simp [importedP, hd, ha]
        have hmem := (mem_accepted_ids_iff x snap1 posts hnodup p hp).mpr himp
        simp [dupB, List.mem_append, hmem]
    · exact Or.inr ha
  have hloop2 := processLoop_all_skipped business x today
    (ledgerIdsL L1.db.ledger business.id) faults posts 0 { result := {}, db := L1.db } hall
  have hip2a : (import_posts business fetch x faults today L1.db limit).1 =
      (processLoop business x today (ledgerIdsL L1.db.ledger business.id) faults 0 posts
        { result := {}, db := L1.db }).result := by
    simp [import_posts, hprem, hhandle, hfetch]
  have hip2b : (import_posts business fetch x faults today L1.db limit).2 =
      (processLoop business x today (ledgerIdsL L1.db.ledger business.id) faults 0 posts
        { result := {}, db := L1.db }).db := by
    simp [import_posts, hprem, hhandle, hfetch]
  have hdis : ∀ p ∈ posts, dupB snap1 p = true → importedP x snap1 p = false := by
    intro p _ hd
    simp [importedP, hd]
  have hpt : ∀ p ∈ posts, dupB (ledgerIdsL L1.db.ledger business.id) p =
      (dupB snap1 p || importedP x snap1 p) := by
    intro p hp
    rw [i5]
    rcases Bool.eq_false_or_eq_true (importedP x snap1 p) with hi | hi
    · have hmem := (mem_accepted_ids_iff x snap1 posts hnodup p hp).mpr hi
      simp [dupB, List.mem_append, hmem, hi]
    · have hnmem : p.post_id ∉
          (posts.filter (importedP x snap1)).map (fun p => p.post_id) := by
        intro hmem
        have := (mem_accepted_ids_iff x snap1 posts hnodup p hp).mp hmem
        rw [this] at hi
        cases hi
      rcases Bool.eq_false_or_eq_true (dupB snap1 p) with hd | hd
      · have hmem1 : p.post_id ∈ snap1 := by simpa [dupB] using hd
        simp [dupB, List.mem_append, hmem1, hd, hi]
      · have hmem1 : p.post_id ∉ snap1 := by simpa [dupB] using hd
        simp [dupB, List.mem_append, hmem1, hnmem, hd, hi]
  have hcount := countP_or_disjoint posts (dupB (ledgerIdsL L1.db.ledger business.id))
    (dupB snap1) (importedP x snap1) hpt hdis
  refine ⟨?_, ?_, ?_⟩
  · rw [hip1b, hip2a, hloop2]
  · rw [hip1b, hip2a, hloop2, hip1a]
    show 0 + posts.countP (dupB (ledgerIdsL L1.db.ledger business.id)) =
      L1.result.imported + L1.result.skipped_duplicate
    rw [hcount, i1, i2]
    omega
  · rw [hip1b, hip2b, hloop2]

/-- C2 witness: the amended statement at a concrete clean two-post run from an
empty ledger. -/
theorem c2_second_run_all_duplicates_witness :
    (import_posts sampleBusiness fetchAB acceptAllExtractor cleanFaults sampleToday
        (import_posts sampleBusiness fetchAB acceptAllExtractor cleanFaults sampleToday
          emptyDb 20).2 20).1.imported = 0 ∧
    (import_posts sampleBusiness fetchAB acceptAllExtractor cleanFaults sampleToday
        (import_posts sampleBusiness fetchAB acceptAllExtractor cleanFaults sampleToday
          emptyDb 20).2 20).1.skipped_duplicate =
      (import_posts sampleBusiness fetchAB acceptAllExtractor cleanFaults sampleToday emptyDb
        20).1.imported +
      (import_posts sampleBusiness fetchAB acceptAllExtractor cleanFaults sampleToday emptyDb
        20).1.skipped_duplicate ∧
    (import_posts sampleBusiness fetchAB acceptAllExtractor cleanFaults sampleToday
        (import_posts sampleBusiness fetchAB acceptAllExtractor cleanFaults sampleToday
          emptyDb 20).2 20).2 =
      (import_posts sampleBusiness fetchAB acceptAllExtractor cleanFaults sampleToday emptyDb
        20).2 :=
  c2_second_run_all_duplicates sampleBusiness fetchAB acceptAllExtractor cleanFaults
    sampleToday emptyDb 20 [samplePostA, samplePostB] rfl (by decide) rfl (by decide)
    (fun _ => rfl)

/-- C9 witness: the amended statement at a concrete rate-limited run. -/
theorem c9_run_error_witness :
    (instagram_import_view_post (some sampleBusiness) rateFetch acceptAllExtractor
        cleanFaults sampleToday emptyDb).1 =
      ⟨400, some "Rate limited by Instagram API", none⟩ :=
  c9_run_error_is_400 sampleBusiness rateFetch acceptAllExtractor cleanFaults sampleToday
    emptyDb "Rate limited by Instagram API" rfl (by decide) rfl

end Popmap
